import Mathlib

/-!
Verification development for the `xl` spreadsheet engine's formula subsystem.

The Go sources are shallowly embedded: pure functions become Lean functions,
the mutable cell/evaluation state is passed explicitly, Go's `(value, error)`
returns become an explicit result type that also distinguishes runtime panics,
and the recursion through cross-cell links is indexed by fuel.

Layout:
  1. models of the Go standard-library parsers used by `guessCellType`
     (`strconv.ParseBool`, `strconv.ParseFloat`, `strconv.ParseInt`);
  2. the `formula` package: AST structs, capture post-processing, the output
     printer, the regex lexer, the recursive-descent grammar, and the
     AST-to-evaluator compiler with its variable bin;
  3. the `sheet` cell value model (`guessCellType`, `evaluateType`, the typed
     readers) and the `eval` evaluation context;
  4. theorems settling the claims.
-/

set_option linter.unusedVariables false

namespace XL

/-! ### Characters and digit strings -/

/-- Decimal digit test, byte range 48..57 (`[0-9]` over ASCII). -/
def isDigit (c : Char) : Bool := 48 ≤ c.toNat && c.toNat ≤ 57

/-- Numeric value of a decimal digit character. -/
def digitVal (c : Char) : Nat := c.toNat - 48

/-- Value of a decimal digit string, most significant digit first. -/
def digitsToNat (ds : List Char) : Nat := ds.foldl (fun a c => 10 * a + digitVal c) 0

theorem digitsToNat_aux (ds : List Char) (a : Nat) :
    ds.foldl (fun a c => 10 * a + digitVal c) a = a * 10 ^ ds.length + digitsToNat ds := by
  induction ds generalizing a with
  | nil => simp [digitsToNat]
  | cons d ds ih =>
    simp only [List.foldl_cons, List.length_cons, digitsToNat] at *
    rw [ih (10 * a + digitVal d), ih (10 * 0 + digitVal d)]
    ring

theorem digitsToNat_cons (c : Char) (cs : List Char) :
    digitsToNat (c :: cs) = digitVal c * 10 ^ cs.length + digitsToNat cs := by
  simp only [digitsToNat, List.foldl_cons]
  rw [digitsToNat_aux]
  simp [digitsToNat]

theorem digitsToNat_dropWhile_zero (ds : List Char) :
    digitsToNat (ds.dropWhile (· = '0')) = digitsToNat ds := by
  induction ds with
  | nil => rfl
  | cons c cs ih =>
    by_cases h : c = '0'
    · subst h
      rw [List.dropWhile_cons_of_pos (by decide)]
      rw [ih, digitsToNat_cons]
      have : digitVal '0' = 0 := by decide
      simp [this]
    · rw [List.dropWhile_cons_of_neg (by simpa using h)]

theorem digitsToNat_ge_pow (c : Char) (cs : List Char) (h1 : isDigit c = true) (h0 : ¬ c = '0') :
    10 ^ cs.length ≤ digitsToNat (c :: cs) := by
  have hv : 1 ≤ digitVal c := by
    simp only [isDigit, Bool.and_eq_true, decide_eq_true_eq] at h1
    have hne : c.toNat ≠ 48 := by
      intro h
      apply h0
      have hval : c.val = (Char.ofNat 48).val := by
        apply UInt32.ext
        simpa [Char.toNat] using h
      have : c = Char.ofNat 48 := Char.ext hval
      simpa using this
    simp only [digitVal]
    omega
  rw [digitsToNat_cons]
  calc 10 ^ cs.length = 1 * 10 ^ cs.length := by ring
    _ ≤ digitVal c * 10 ^ cs.length := Nat.mul_le_mul_right _ hv
    _ ≤ _ := Nat.le_add_right _ _

/-! ### Go `strconv` models

These model the Go standard-library parsing routines called by the cell type
inference, following the `strconv` source and documentation. -/

/-- Model of Go `strconv.ParseBool`: succeeds exactly on the twelve literals of
its `switch`, including `"1"` and `"0"`. -/
def goParseBool (s : String) : Option Bool :=
  if s = "1" ∨ s = "t" ∨ s = "T" ∨ s = "TRUE" ∨ s = "true" ∨ s = "True" then some true
  else if s = "0" ∨ s = "f" ∨ s = "F" ∨ s = "FALSE" ∨ s = "false" ∨ s = "False" then some false
  else none

/-- The digit run of Go `ParseInt` (its `parseUint` call plus the sign and
bit-size check): a nonempty run of decimal digits within the `int64` range of
the requested sign. -/
def goParseIntDigits (neg : Bool) (ds : List Char) : Option Int :=
  if ds = [] ∨ ¬ (ds.all isDigit = true) then none
  else
    let n := digitsToNat ds
    if neg then (if n ≤ 2 ^ 63 then some (-(n : Int)) else none)
    else (if n ≤ 2 ^ 63 - 1 then some (n : Int) else none)

/-- Model of Go `strconv.ParseInt(s, 10, 64)`: optional sign, then a nonempty
run of decimal digits (no underscores since the base is explicit), failing with
`ErrRange` (here: `none`) outside the `int64` range. -/
def goParseInt64 (s : String) : Option Int :=
  match s.data with
  | [] => none
  | c :: rest =>
    if c = '+' then goParseIntDigits false rest
    else if c = '-' then goParseIntDigits true rest
    else goParseIntDigits false (c :: rest)

/-- Integer power of ten over ℚ, with negative exponents. -/
def pow10 (e : Int) : ℚ :=
  if 0 ≤ e then ((10 ^ e.toNat : ℕ) : ℚ) else 1 / ((10 ^ (-e).toNat : ℕ) : ℚ)

/-- Smallest positive value that overflows `float64` under round-to-even:
`2^1024 - 2^970` (the largest finite `float64` plus half its ulp). -/
def maxFloat64Boundary : ℕ := 2 ^ 1024 - 2 ^ 970

/-- Reads the decimal-float body after the sign: digits with at most one dot
and at least one digit, then an optional decimal exponent; the whole input must
be consumed.  Returns the mantissa digits and the base-10 exponent of the
implied decimal point position (so the value is `digits * 10 ^ (e10 - len)`).
Mirrors `strconv`'s `readFloat` for the non-hexadecimal case. -/
def readDecFloat (cs : List Char) : Option (List Char × Int) :=
  let ip := cs.takeWhile isDigit
  let r1 := cs.dropWhile isDigit
  let core : Option (List Char × Int × List Char) :=
    match r1 with
    | '.' :: r2 =>
      let fp := r2.takeWhile isDigit
      if ip = [] ∧ fp = [] then none
      else some (ip ++ fp, (ip.length : Int), r2.dropWhile isDigit)
    | _ => if ip = [] then none else some (ip, (ip.length : Int), r1)
  match core with
  | none => none
  | some (digits, dp, rest) =>
    match rest with
    | [] => some (digits, dp)
    | e :: r2 =>
      if e = 'e' ∨ e = 'E' then
        let q := match r2 with
          | c :: r3 => if c = '+' then ((1 : Int), r3) else if c = '-' then ((-1 : Int), r3) else ((1 : Int), r2)
          | [] => ((1 : Int), ([] : List Char))
        let eds := q.2.takeWhile isDigit
        if eds = [] ∨ q.2.dropWhile isDigit ≠ [] then none
        else some (digits, dp + q.1 * (digitsToNat eds : Int))
      else none

/-- Range acceptance for a parsed decimal float: mirrors `strconv`'s decimal
conversion, which short-circuits on a decimal exponent above 310 (overflow) or
below -330 (underflow to zero, accepted without error) and otherwise compares
the exact value against the `float64` overflow boundary. -/
def decFloatInRange (digits : List Char) (e10 : Int) : Bool :=
  let sig := digits.dropWhile (· = '0')
  if sig = [] then true
  else
    let e : Int := e10 - ((digits.length : Int) - (sig.length : Int))
    if e > 310 then false
    else if e < -330 then true
    else
      let k : Int := e10 - (digits.length : Int)
      if 0 ≤ k then decide (digitsToNat digits * 10 ^ k.toNat < maxFloat64Boundary)
      else decide (digitsToNat digits < maxFloat64Boundary * 10 ^ (-k).toNat)

/-- Hexadecimal digit test. -/
def isHexDigit (c : Char) : Bool :=
  isDigit c || (97 ≤ c.toLower.toNat && c.toLower.toNat ≤ 102)

/-- Value of a hexadecimal digit string. -/
def hexToNat (ds : List Char) : Nat :=
  ds.foldl (fun a c => 16 * a + (if isDigit c then digitVal c else c.toLower.toNat - 87)) 0

/-- Reads a hexadecimal float body (`0x` mantissa with required binary `p`
exponent), per Go float syntax.  Returns mantissa hex digits, the number of
hex digits before the point, and the binary exponent. -/
def readHexFloat (cs : List Char) : Option (List Char × Int × Int) :=
  match cs with
  | z :: x :: r0 =>
    if z = '0' ∧ (x = 'x' ∨ x = 'X') then
      let ip := r0.takeWhile isHexDigit
      let r1 := r0.dropWhile isHexDigit
      let core : Option (List Char × Int × List Char) :=
        match r1 with
        | '.' :: r2 =>
          let fp := r2.takeWhile isHexDigit
          if ip = [] ∧ fp = [] then none
          else some (ip ++ fp, (ip.length : Int), r2.dropWhile isHexDigit)
        | _ => if ip = [] then none else some (ip, (ip.length : Int), r1)
      match core with
      | none => none
      | some (digits, dp, rest) =>
        match rest with
        | p :: r2 =>
          if p = 'p' ∨ p = 'P' then
            let q := match r2 with
              | c :: r3 => if c = '+' then ((1 : Int), r3) else if c = '-' then ((-1 : Int), r3) else ((1 : Int), r2)
              | [] => ((1 : Int), ([] : List Char))
            let eds := q.2.takeWhile isDigit
            if eds = [] ∨ q.2.dropWhile isDigit ≠ [] then none
            else some (digits, dp, q.1 * (digitsToNat eds : Int))
          else none
        | [] => none
    else none
  | _ => none

/-- Range acceptance for a parsed hexadecimal float, with the analogous
short-circuits on extreme exponents. -/
def hexFloatInRange (digits : List Char) (dp e2 : Int) : Bool :=
  let sig := digits.dropWhile (· = '0')
  if sig = [] then true
  else
    let ebits : Int := 4 * (dp - ((digits.length : Int) - (sig.length : Int))) + e2
    if ebits > 1100 then false
    else if ebits < -1200 then true
    else
      let k : Int := 4 * (dp - (digits.length : Int)) + e2
      if 0 ≤ k then decide (hexToNat digits * 2 ^ k.toNat < maxFloat64Boundary)
      else decide (hexToNat digits < maxFloat64Boundary * 2 ^ (-k).toNat)

/-- Case-insensitive equality on ASCII strings (Go `strings.EqualFold`,
restricted to the ASCII inputs that arise here), compared as lowered
character lists. -/
def eqFold (s t : String) : Bool := decide (s.data.map Char.toLower = t.data.map Char.toLower)

/-- Model of Go `strconv`'s `special`: after an optional sign, `inf` and
`infinity` are accepted case-insensitively; an unsigned `nan` is accepted. -/
def isSpecialFloat (signed : Bool) (body : List Char) : Bool :=
  let s := String.mk body
  eqFold s "inf" || eqFold s "infinity" || (!signed && eqFold s "nan")

/-- Go `underscoreOK`: underscores may appear only between successive digits
(or between a `0x` base prefix and a digit). -/
def underscoreOK (cs : List Char) : Bool :=
  let cs := match cs with
    | c :: r => if c = '+' ∨ c = '-' then r else cs
    | [] => cs
  let p : Bool × List Char := match cs with
    | z :: x :: r => if z = '0' ∧ (x = 'x' ∨ x = 'X') then (true, r) else (false, cs)
    | _ => (false, cs)
  let hex := p.1
  go hex '0' p.2
where
  /-- Walks the characters carrying the previously seen class, as in Go
  (`saw` = `'0'` for digit, `'_'` for underscore, `'!'` for other). -/
  go (hex : Bool) (saw : Char) : List Char → Bool
  | [] => saw ≠ '_'
  | c :: r =>
    if (if hex then isHexDigit c else isDigit c) then go hex '0' r
    else if c = '_' then (if saw = '0' then go hex '_' r else false)
    else if saw = '_' then false
    else go hex '!' r

/-- Acceptance of the float body after the sign: the `inf`/`nan` specials,
then decimal syntax, then hexadecimal syntax, with the range acceptance. -/
def goParseFloatBody (signed : Bool) (body : List Char) : Bool :=
  if isSpecialFloat signed body then true
  else
    match readDecFloat body with
    | some (digits, e10) => decFloatInRange digits e10
    | none =>
      match readHexFloat body with
      | some (digits, dp, e2) => hexFloatInRange digits dp e2
      | none => false

/-- Acceptance of Go `strconv.ParseFloat(s, 64)` on an underscore-free input:
an optional sign, then the float body. -/
def goParseFloatAcceptsNoU (cs : List Char) : Bool :=
  match cs with
  | c :: r => if c = '+' ∨ c = '-' then goParseFloatBody true r else goParseFloatBody false (c :: r)
  | [] => goParseFloatBody false []

/-- Model of `err == nil` for Go `strconv.ParseFloat(s, 64)`.  Underscored
input is accepted only when `underscoreOK` holds, and then parses as the
underscore-stripped text, mirroring `readFloat`. -/
def goParseFloatAccepts (s : String) : Bool :=
  let cs := s.data
  if cs.contains '_' then underscoreOK cs && goParseFloatAcceptsNoU (cs.filter (· ≠ '_'))
  else goParseFloatAcceptsNoU cs

/-! ### The `value` package (spec-modelled)

The repository's `xl/document/value` package is not under `src/`; only its
call sites are.  Its data is modelled from the spec. -/

/-- Modelled from the spec: `value.Value` is "a typed value variant
(text/decimal/boolean)" or a lazily queried link to another cell; `zero` is
the Go zero `value.Value{}` used when an error is returned alongside it.
A link holds the target cell coordinate handed out by the registry. -/
inductive Value where
  | zero
  | str (s : String)
  | dec (d : ℚ)
  | bool (b : Bool)
  | link (coord : String)
  deriving DecidableEq

/-- Constructor name kept from the `value` package call sites. -/
def NewStringValue (s : String) : Value := .str s

/-- Constructor name kept from the `value` package call sites. -/
def NewDecimalValue (d : ℚ) : Value := .dec d

/-- Constructor name kept from the `value` package call sites. -/
def NewBoolValue (b : Bool) : Value := .bool b

/-- Constructor name kept from the `value` package call sites. -/
def NewLinkValue (coord : String) : Value := .link coord

/-- Failure of a compiled evaluator: a Go `error` return, or a runtime panic
(nil-slice indexing, explicit `panic` calls).  Panics are tracked separately
because Go callers that discard the `error` still crash on a panic. -/
inductive EvalErr where
  | goErr (msg : String)
  | goPanic (msg : String)
  deriving DecidableEq

/-- The `formula.Function` evaluator type, reconstructed from its uses in
`Parse` and `buildFuncFrom*`: `func(args []value.Value) (value.Value, error)`. -/
def Function := List Value → Except EvalErr Value

namespace formula

/-! ### AST structs (from the participle grammar annotations in the source) -/

/-- `formula.Cell`: optional sheet qualifier plus cell coordinate text. -/
structure Cell where
  sheet : Option String
  cell : String
  deriving DecidableEq

/-- `formula.CellRange`: a reference, optionally `:`-paired with a second. -/
structure CellRange where
  cell : Cell
  cellTo : Option Cell
  deriving DecidableEq

mutual

/-- `formula.Equality`: comparison, then optionally `<>`/`=` and a right
`Equality` (`Op` is `""` and `Next` is `nil` when absent, as in Go). -/
inductive Equality where
  | mk (comparison : Comparison) (op : String) (next : Option Equality)

/-- `formula.Comparison`. -/
inductive Comparison where
  | mk (addition : Addition) (op : String) (next : Option Comparison)

/-- `formula.Addition`. -/
inductive Addition where
  | mk (multiplication : Multiplication) (op : String) (next : Option Addition)

/-- `formula.Multiplication`. -/
inductive Multiplication where
  | mk (unary : Unary) (op : String) (next : Option Multiplication)

/-- `formula.Unary`: either a sign with a nested unary, or a primary. -/
inductive Unary where
  | mk (op : String) (unary : Option Unary) (primary : Option Primary)

/-- `formula.Primary`: exactly one variant is set by the parser.  The Go
`*float64` number payload is modelled as an exact rational (the claims settled
here do not depend on `float64` rounding). -/
inductive Primary where
  | mk (subExpression : Option Equality) (number : Option ℚ) (str : Option String)
       (boolean : Option Bool) (func : Option Func) (cellRange : Option CellRange)

/-- `formula.Func`: captured name and comma-separated `Equality` arguments. -/
inductive Func where
  | mk (name : String) (arguments : List Equality)

end

/-- `formula.Expression`: the leading `=` marker then an `Equality`. -/
structure Expression where
  equality : Equality

def Equality.comparison : Equality → Comparison | .mk c _ _ => c
def Equality.op : Equality → String | .mk _ o _ => o
def Equality.next : Equality → Option Equality | .mk _ _ n => n
def Comparison.addition : Comparison → Addition | .mk a _ _ => a
def Comparison.op : Comparison → String | .mk _ o _ => o
def Comparison.next : Comparison → Option Comparison | .mk _ _ n => n
def Addition.multiplication : Addition → Multiplication | .mk m _ _ => m
def Addition.op : Addition → String | .mk _ o _ => o
def Addition.next : Addition → Option Addition | .mk _ _ n => n
def Multiplication.unary : Multiplication → Unary | .mk u _ _ => u
def Multiplication.op : Multiplication → String | .mk _ o _ => o
def Multiplication.next : Multiplication → Option Multiplication | .mk _ _ n => n
def Unary.op : Unary → String | .mk o _ _ => o
def Unary.unary : Unary → Option Unary | .mk _ u _ => u
def Unary.primary : Unary → Option Primary | .mk _ _ p => p
def Func.name : Func → String | .mk n _ => n
def Func.arguments : Func → List Equality | .mk _ a => a

/-! ### Capture post-processing (the `Capture` methods in the source) -/

/-- The single-quote character, by code point. -/
def squote : Char := Char.ofNat 39

/-- Go `strings.TrimRight(s, cutset)` for a one-character cutset: drops every
trailing occurrence of `c`. -/
def trimRightChar (s : String) (c : Char) : String :=
  String.mk (s.data.reverse.dropWhile (· = c)).reverse

/-- Collapses doubled occurrences of `q` into one, scanning left to right
(Go `strings.Replace(s, qq, q, -1)`). -/
def collapseDoubled (q : Char) : List Char → List Char
  | a :: b :: r => if a = q ∧ b = q then q :: collapseDoubled q r else a :: collapseDoubled q (b :: r)
  | other => other

/-- `Boolean.Capture`: case-insensitive comparison with `"TRUE"`. -/
def booleanCapture (s : String) : Bool := eqFold s "TRUE"

/-- `Sheet.Capture`: strip the trailing `!`, strip one layer of surrounding
single quotes if present, collapse doubled single quotes. -/
def sheetCapture (s : String) : String :=
  let s := trimRightChar s '!'
  let s :=
    if 2 ≤ s.length ∧ s.data.head? = some squote ∧ s.data.getLast? = some squote then
      String.mk (s.data.drop 1 |>.dropLast)
    else s
  String.mk (collapseDoubled squote s.data)

/-- `FuncName.Capture`: strip the trailing `(`. -/
def funcNameCapture (s : String) : String := trimRightChar s '('

/-- `String.Capture`: drop the first and last character (the quotes), collapse
doubled double quotes. -/
def stringCapture (s : String) : String :=
  String.mk (collapseDoubled '"' (s.data.drop 1 |>.dropLast))

/-! ### Output printer (`Output`/`String` in the source)

The Go printer emits fragments through a callback that the `String` method
concatenates; the model concatenates directly, preserving emission order.
The number branch calls `strconv.FormatFloat` with the fixed-point format and
-1 precision; its digit rendering is approximated on the exact-rational number
payload (no claim settled here depends on printed numbers). -/

/-- Rendering of the number payload standing in for `FormatFloat`. -/
def formatNumber (q : ℚ) : String :=
  if q.den = 1 then toString q.num else toString q

/-- `Cell.Output`: optional sheet and `!`, then the coordinate. -/
def Cell.Output : Cell → String
  | .mk sh co => (match sh with | some s => s ++ "!" | none => "") ++ co

/-- `CellRange.Output`. -/
def CellRange.Output : CellRange → String
  | .mk c t2 =>
    Cell.Output c ++ (match t2 with | some t => ":" ++ Cell.Output t | none => "")

mutual

/-- `Equality.Output`. -/
def Equality.Output : Equality → String
  | .mk cmp op nxt =>
    Comparison.Output cmp ++
      (match nxt with
       | some n => if op ≠ "" then op ++ Equality.Output n else ""
       | none => "")

/-- `Comparison.Output`. -/
def Comparison.Output : Comparison → String
  | .mk a op nxt =>
    Addition.Output a ++
      (match nxt with
       | some n => if op ≠ "" then op ++ Comparison.Output n else ""
       | none => "")

/-- `Addition.Output`. -/
def Addition.Output : Addition → String
  | .mk m op nxt =>
    Multiplication.Output m ++
      (match nxt with
       | some n => if op ≠ "" then op ++ Addition.Output n else ""
       | none => "")

/-- `Multiplication.Output`. -/
def Multiplication.Output : Multiplication → String
  | .mk u op nxt =>
    Unary.Output u ++
      (match nxt with
       | some n => if op ≠ "" then op ++ Multiplication.Output n else ""
       | none => "")

/-- `Unary.Output`: primary if present, else the sign and the nested unary. -/
def Unary.Output : Unary → String
  | .mk op u p =>
    match p with
    | some pr => Primary.Output pr
    | none =>
      match u with
      | some un => op ++ Unary.Output un
      | none => op

/-- `Primary.Output`.  As in the source, the sub-expression test is a separate
`if` (not chained with the variant chain), and the string branch emits the
captured text with no surrounding quotes. -/
def Primary.Output : Primary → String
  | .mk sub num st bo fn cr =>
    (match sub with
     | some e => "(" ++ Equality.Output e ++ ")"
     | none => "") ++
    (match num with
     | some q => formatNumber q
     | none =>
       match st with
       | some s => s
       | none =>
         match bo with
         | some b => if b then "TRUE" else "FALSE"
         | none =>
           match fn with
           | some f => Func.Output f
           | none =>
             match cr with
             | some c => CellRange.Output c
             | none => "")

/-- `Func.Output`: the captured name, `(`, then every argument followed by
`", "` (including the last), then `)`. -/
def Func.Output : Func → String
  | .mk name args => name ++ "(" ++ argsOutput args ++ ")"

/-- Helper folding `Func.Output`'s argument loop. -/
def argsOutput : List Equality → String
  | [] => ""
  | a :: r => Equality.Output a ++ "," ++ " " ++ argsOutput r

end

/-- `Expression.String`: the `=` marker then the equality, via `Output`. -/
def Expression.String (e : Expression) : String := "=" ++ Equality.Output e.equality

/-! ### Lexer

The source builds a `participle` regex lexer over an alternation of token
classes.  Go regular expressions are leftmost-first, so at each position the
first class in the alternation that matches wins (with greedy repetition
inside each class); whitespace is recognized and discarded before parsing, and
the `^=` marker only matches at position 0.  This model applies those classes
in the source's order. -/

/-- Token classes, in the order of the regex alternation. -/
inductive TokKind where
  | space | marker | oper | number | strLit | boolean | funcName | sheetName | cellRef
  deriving DecidableEq

/-- A lexed token: its class and the full matched text. -/
structure Tok where
  kind : TokKind
  text : String
  deriving DecidableEq

/-- Go regexp `\s`: tab, newline, form feed, carriage return, space. -/
def isSpaceChar (c : Char) : Bool :=
  c.toNat = 9 || c.toNat = 10 || c.toNat = 12 || c.toNat = 13 || c.toNat = 32

/-- The regex class `[A-z]` (as written in the source): ASCII 65..122, which
also includes the six punctuation characters between `Z` and `a`. -/
def isAtoZRange (c : Char) : Bool := 65 ≤ c.toNat && c.toNat ≤ 122

/-- One operator, longest alternatives first (`<>`, `<=`, `>=`), then the
single-character class. -/
def matchOperator : List Char → Option (List Char × List Char)
  | '<' :: '>' :: r => some (['<', '>'], r)
  | '<' :: '=' :: r => some (['<', '='], r)
  | '>' :: '=' :: r => some (['>', '='], r)
  | c :: r =>
    if c = '-' ∨ c = '+' ∨ c = '*' ∨ c = '/' ∨ c = '(' ∨ c = ')' ∨ c = '=' ∨ c = '<' ∨
        c = '>' ∨ c = ',' ∨ c = ':' then
      some ([c], r)
    else none
  | [] => none

/-- Number class `\d*\.?\d+([eE][-+]?\d+)?` with the leftmost-first greedy
backtracking a Go regex performs: the dot is kept only when digits follow it,
and the exponent only when its digits are present. -/
def matchNumber (cs : List Char) : Option (List Char × List Char) :=
  let ip := cs.takeWhile isDigit
  let r1 := cs.dropWhile isDigit
  let core : Option (List Char × List Char) :=
    match r1 with
    | '.' :: r2 =>
      let fp := r2.takeWhile isDigit
      if fp = [] then (if ip = [] then none else some (ip, r1))
      else some (ip ++ '.' :: fp, r2.dropWhile isDigit)
    | _ => if ip = [] then none else some (ip, r1)
  match core with
  | none => none
  | some (m, r) =>
    match r with
    | e :: r2 =>
      if e = 'e' ∨ e = 'E' then
        let q : List Char × List Char := match r2 with
          | s :: r3 => if s = '+' ∨ s = '-' then ([s], r3) else ([], r2)
          | [] => ([], r2)
        let ed := q.2.takeWhile isDigit
        if ed = [] then some (m, r)
        else some (m ++ e :: q.1 ++ ed, q.2.dropWhile isDigit)
      else some (m, r)
    | [] => some (m, r)

/-- Body of a quote-delimited literal with doubling as the escape: consumes up
to and including the closing quote. -/
def matchQuoted (q : Char) : List Char → Option (List Char × List Char)
  | [] => none
  | c :: r =>
    if c = q then
      match r with
      | c2 :: r2 =>
        if c2 = q then (matchQuoted q r2).map (fun p => (q :: q :: p.1, p.2))
        else some ([q], r)
      | [] => some ([q], [])
    else (matchQuoted q r).map (fun p => (c :: p.1, p.2))

/-- String class `"([^"]|"")*"`. -/
def matchStringLit : List Char → Option (List Char × List Char)
  | '"' :: r => (matchQuoted '"' r).map (fun p => ('"' :: p.1, p.2))
  | _ => none

/-- Case-insensitive literal match returning the consumed original text. -/
def matchCI : List Char → List Char → Option (List Char × List Char)
  | [], rest => some ([], rest)
  | _ :: _, [] => none
  | p :: ps, c :: r =>
    if c.toLower = p.toLower then (matchCI ps r).map (fun q => (c :: q.1, q.2))
    else none

/-- Boolean class `(?i)TRUE|FALSE`, `TRUE` alternative first. -/
def matchBoolean (cs : List Char) : Option (List Char × List Char) :=
  match matchCI "TRUE".data cs with
  | some p => some p
  | none => matchCI "FALSE".data cs

/-- Function-name class `[A-z0-9]+\(`: the identifier and its trailing `(`
are both part of the token text. -/
def matchFuncName (cs : List Char) : Option (List Char × List Char) :=
  let id := cs.takeWhile (fun c => isAtoZRange c || isDigit c)
  if id = [] then none
  else
    match cs.dropWhile (fun c => isAtoZRange c || isDigit c) with
    | '(' :: r => some (id ++ ['('], r)
    | _ => none

/-- Sheet class `([A-z0-9_]+|'([^']|'')*')!` (single-quoted or bare name,
then `!`; `[A-z]` already contains `_`).  The `!` is part of the token text. -/
def matchSheet (cs : List Char) : Option (List Char × List Char) :=
  match cs with
  | c :: r =>
    if c = squote then
      match matchQuoted squote r with
      | some (q, r2) =>
        (match r2 with
         | '!' :: r3 => some (squote :: q ++ ['!'], r3)
         | _ => none)
      | none => none
    else
      let id := cs.takeWhile (fun c => isAtoZRange c || isDigit c)
      if id = [] then none
      else
        match cs.dropWhile (fun c => isAtoZRange c || isDigit c) with
        | '!' :: r2 => some (id ++ ['!'], r2)
        | _ => none
  | [] => none

/-- Cell class `[A-z]+[1-9][0-9]*`. -/
def matchCellRef (cs : List Char) : Option (List Char × List Char) :=
  let ls := cs.takeWhile isAtoZRange
  if ls = [] then none
  else
    match cs.dropWhile isAtoZRange with
    | d :: r =>
      if 49 ≤ d.toNat ∧ d.toNat ≤ 57 then
        some (ls ++ d :: r.takeWhile isDigit, r.dropWhile isDigit)
      else none
    | [] => none

/-- One token at the current position, trying the alternation branches in the
source regex's order; `atStart` enables the `^=` marker branch. -/
def lexOne (atStart : Bool) (cs : List Char) : Option (Tok × List Char) :=
  let ws := cs.takeWhile isSpaceChar
  if ws ≠ [] then some (⟨.space, String.mk ws⟩, cs.dropWhile isSpaceChar)
  else
    match cs with
    | [] => none
    | c :: r =>
      if atStart ∧ c = '=' then some (⟨.marker, "="⟩, r)
      else
        match matchOperator (c :: r) with
        | some (t, rest) => some (⟨.oper, String.mk t⟩, rest)
        | none =>
          match matchNumber (c :: r) with
          | some (t, rest) => some (⟨.number, String.mk t⟩, rest)
          | none =>
            match matchStringLit (c :: r) with
            | some (t, rest) => some (⟨.strLit, String.mk t⟩, rest)
            | none =>
              match matchBoolean (c :: r) with
              | some (t, rest) => some (⟨.boolean, String.mk t⟩, rest)
              | none =>
                match matchFuncName (c :: r) with
                | some (t, rest) => some (⟨.funcName, String.mk t⟩, rest)
                | none =>
                  match matchSheet (c :: r) with
                  | some (t, rest) => some (⟨.sheetName, String.mk t⟩, rest)
                  | none =>
                    match matchCellRef (c :: r) with
                    | some (t, rest) => some (⟨.cellRef, String.mk t⟩, rest)
                    | none => none

/-- Repeated lexing with fuel (each step consumes at least one character, so
`length + 1` fuel always suffices). -/
def lexAll : Nat → Bool → List Char → Option (List Tok)
  | _, _, [] => some []
  | 0, _, _ :: _ => none
  | n + 1, atStart, cs =>
    match lexOne atStart cs with
    | none => none
    | some (t, rest) => (lexAll n false rest).map (t :: ·)

/-- Lexes a whole formula and discards whitespace tokens (the grammar never
sees them), or fails with a lexical error. -/
def lexFormula (s : String) : Option (List Tok) :=
  (lexAll (s.data.length + 1) true s.data).map (·.filter (fun t => t.kind ≠ .space))

/-! ### Grammar

A recursive-descent parser over the token list, following the participle
struct annotations with ordered choice and backtracking on optional groups
and alternatives.  Literal terminals match by token text, capture terminals
by token class.  The nesting recursion is indexed by fuel; `parseExpression`
supplies enough for any token list. -/

/-- Matches a literal terminal by token text. -/
def matchText (s : String) : List Tok → Option (List Tok)
  | t :: r => if t.text = s then some r else none
  | [] => none

/-- Matches a capture terminal by token class, returning its text. -/
def matchKind (k : TokKind) : List Tok → Option (String × List Tok)
  | t :: r => if t.kind = k then some (t.text, r) else none
  | [] => none

/-- Matches one of the operator literals, returning the matched text. -/
def matchOneOf (ops : List String) : List Tok → Option (String × List Tok)
  | t :: r => if ops.contains t.text then some (t.text, r) else none
  | [] => none

/-- Value of a Number token, standing in for the `float64` capture of
`strconv.ParseFloat` on the token text, as an exact rational. -/
def numberVal (s : String) : ℚ :=
  match readDecFloat s.data with
  | some (ds, e10) => (digitsToNat ds : ℚ) * pow10 (e10 - ds.length)
  | none => 0

/-- `Cell <- [ Sheet ] CellToken`. -/
def parseCellNode (ts : List Tok) : Option (Cell × List Tok) :=
  match matchKind .sheetName ts with
  | some (sh, ts1) =>
    (match matchKind .cellRef ts1 with
     | some (co, ts2) => some (.mk (some (sheetCapture sh)) co, ts2)
     | none =>
       match matchKind .cellRef ts with
       | some (co, ts2) => some (.mk none co, ts2)
       | none => none)
  | none =>
    match matchKind .cellRef ts with
    | some (co, ts2) => some (.mk none co, ts2)
    | none => none

/-- `CellRange <- Cell [ ":" Cell ]`. -/
def parseCellRange (ts : List Tok) : Option (CellRange × List Tok) :=
  match parseCellNode ts with
  | none => none
  | some (c, ts1) =>
    match matchText ":" ts1 with
    | some ts2 =>
      (match parseCellNode ts2 with
       | some (c2, ts3) => some (.mk c (some c2), ts3)
       | none => some (.mk c none, ts1))
    | none => some (.mk c none, ts1)

mutual

/-- `Equality <- Comparison [ ("<>" | "=") Equality ]`. -/
def parseEquality : Nat → List Tok → Option (Equality × List Tok)
  | 0, _ => none
  | n + 1, ts =>
    match parseComparison n ts with
    | none => none
    | some (cmp, ts1) =>
      match matchOneOf ["<>", "="] ts1 with
      | some (op, ts2) =>
        match parseEquality n ts2 with
        | some (nxt, ts3) => some (.mk cmp op (some nxt), ts3)
        | none => some (.mk cmp "" none, ts1)
      | none => some (.mk cmp "" none, ts1)

/-- `Comparison <- Addition [ (">" | ">=" | "<" | "<=") Comparison ]`. -/
def parseComparison : Nat → List Tok → Option (Comparison × List Tok)
  | 0, _ => none
  | n + 1, ts =>
    match parseAddition n ts with
    | none => none
    | some (a, ts1) =>
      match matchOneOf [">", ">=", "<", "<="] ts1 with
      | some (op, ts2) =>
        match parseComparison n ts2 with
        | some (nxt, ts3) => some (.mk a op (some nxt), ts3)
        | none => some (.mk a "" none, ts1)
      | none => some (.mk a "" none, ts1)

/-- `Addition <- Multiplication [ ("-" | "+") Addition ]`. -/
def parseAddition : Nat → List Tok → Option (Addition × List Tok)
  | 0, _ => none
  | n + 1, ts =>
    match parseMultiplication n ts with
    | none => none
    | some (m, ts1) =>
      match matchOneOf ["-", "+"] ts1 with
      | some (op, ts2) =>
        match parseAddition n ts2 with
        | some (nxt, ts3) => some (.mk m op (some nxt), ts3)
        | none => some (.mk m "" none, ts1)
      | none => some (.mk m "" none, ts1)

/-- `Multiplication <- Unary [ ("/" | "*") Multiplication ]`. -/
def parseMultiplication : Nat → List Tok → Option (Multiplication × List Tok)
  | 0, _ => none
  | n + 1, ts =>
    match parseUnary n ts with
    | none => none
    | some (u, ts1) =>
      match matchOneOf ["/", "*"] ts1 with
      | some (op, ts2) =>
        match parseMultiplication n ts2 with
        | some (nxt, ts3) => some (.mk u op (some nxt), ts3)
        | none => some (.mk u "" none, ts1)
      | none => some (.mk u "" none, ts1)

/-- `Unary <- ( ("-" | "+") Unary ) | Primary`. -/
def parseUnary : Nat → List Tok → Option (Unary × List Tok)
  | 0, _ => none
  | n + 1, ts =>
    match matchOneOf ["-", "+"] ts with
    | some (op, ts1) =>
      (match parseUnary n ts1 with
       | some (u, ts2) => some (.mk op (some u) none, ts2)
       | none =>
         match parsePrimary n ts with
         | some (p, ts2) => some (.mk "" none (some p), ts2)
         | none => none)
    | none =>
      match parsePrimary n ts with
      | some (p, ts2) => some (.mk "" none (some p), ts2)
      | none => none

/-- `Primary <- "(" Equality ")" | Number | String | Boolean | Func |
CellRange`, alternatives in struct order. -/
def parsePrimary : Nat → List Tok → Option (Primary × List Tok)
  | 0, _ => none
  | n + 1, ts =>
    match matchText "(" ts with
    | some ts1 =>
      (match parseEquality n ts1 with
       | some (e, ts2) =>
         (match matchText ")" ts2 with
          | some ts3 => some (.mk (some e) none none none none none, ts3)
          | none => parsePrimaryRest n ts)
       | none => parsePrimaryRest n ts)
    | none => parsePrimaryRest n ts

/-- The non-parenthesized `Primary` alternatives. -/
def parsePrimaryRest : Nat → List Tok → Option (Primary × List Tok)
  | 0, _ => none
  | n + 1, ts =>
    match matchKind .number ts with
    | some (t, ts1) => some (.mk none (some (numberVal t)) none none none none, ts1)
    | none =>
      match matchKind .strLit ts with
      | some (t, ts1) => some (.mk none none (some (stringCapture t)) none none none, ts1)
      | none =>
        match matchKind .boolean ts with
        | some (t, ts1) => some (.mk none none none (some (booleanCapture t)) none none, ts1)
        | none =>
          match parseFunc n ts with
          | some (f, ts1) => some (.mk none none none none (some f) none, ts1)
          | none =>
            match parseCellRange ts with
            | some (cr, ts1) => some (.mk none none none none none (some cr), ts1)
            | none => none

/-- `Func <- FuncName Equality { "," Equality } ")"` (the `(` is inside the
FuncName token). -/
def parseFunc : Nat → List Tok → Option (Func × List Tok)
  | 0, _ => none
  | n + 1, ts =>
    match matchKind .funcName ts with
    | none => none
    | some (nameTok, ts1) =>
      match parseEquality n ts1 with
      | none => none
      | some (a0, ts2) =>
        match parseMoreArgs n ts2 with
        | none => none
        | some (more, ts3) =>
          match matchText ")" ts3 with
          | some ts4 => some (.mk (funcNameCapture nameTok) (a0 :: more), ts4)
          | none => none

/-- The `{ "," Equality }` repetition of `Func`. -/
def parseMoreArgs : Nat → List Tok → Option (List Equality × List Tok)
  | 0, _ => none
  | n + 1, ts =>
    match matchText "," ts with
    | none => some ([], ts)
    | some ts1 =>
      match parseEquality n ts1 with
      | none => none
      | some (a, ts2) =>
        match parseMoreArgs n ts2 with
        | none => none
        | some (more, ts3) => some (a :: more, ts3)

end

/-- Parses a whole formula: lex, match the `=` marker, parse the `Equality`,
and require the token stream to be exhausted (participle parses to EOF). -/
def parseExpression (s : String) : Option Expression :=
  match lexFormula s with
  | none => none
  | some ts =>
    match matchText "=" ts with
    | none => none
    | some ts1 =>
      match parseEquality (8 * (ts1.length + 1)) ts1 with
      | some (e, []) => some ⟨e⟩
      | _ => none

/-! ### Compiler (AST to evaluator)

`buildFuncFrom*` walk the AST once, appending one descriptor to the variable
bin per reference and returning the composed evaluator and its consumed-
argument count.  The Go code mutates a shared `*VarBin`; the model threads it
and returns the updated bin as a third component. -/

/-- A variable-bin entry.  `newVar` is declared in a source file that is not
under `src/`; from its use in `makeLinks` (fields `Cell` and `CellTo`) it
carries the parsed range's endpoints.  Modelled from the spec: "an ordered
sequence of raw reference descriptors collected during compilation". -/
structure Var where
  Cell : formula.Cell
  CellTo : Option formula.Cell
  deriving DecidableEq

/-- `formula.VarBin`, reconstructed from its uses (`vb.Vars`, `&VarBin{}`). -/
structure VarBin where
  Vars : List Var
  deriving DecidableEq

/-- Modelled from the spec: `newVar` builds the descriptor for a parsed
cell/range reference. -/
def newVar (cr : CellRange) : Var := ⟨cr.cell, cr.cellTo⟩

/-- Modelled from the spec: the external operator/function evaluation
capability (`evalOperator`, `evalFunc`), which "receives an operator symbol or
function name plus already-evaluated typed operand values; returns a typed
value or an evaluation error".  Its implementation is not part of the core. -/
structure ExternalEval where
  evalOperator : String → List Value → Except EvalErr Value
  evalFunc : String → List Value → Except EvalErr Value

/-- Go slice expression `args[n:]`: panics when `n` exceeds the length. -/
def goSliceFrom (args : List Value) (n : Nat) : Except EvalErr (List Value) :=
  if n ≤ args.length then .ok (args.drop n) else .error (.goPanic "slice bounds out of range")

/-- Total consumed count of compiled arguments. -/
def sumConsumed (rs : List (Function × Nat)) : Nat := (rs.map (·.2)).sum

/-- The function-call evaluation loop: runs each compiled argument on the
array sliced at the cumulative consumed count, short-circuiting on error, then
hands the collected values to the continuation (`evalFunc`). -/
def runFuncArgs : List (Function × Nat) → List Value → (List Value → Except EvalErr Value) → Except EvalErr Value
  | [], _, k => k []
  | (f, n) :: rest, args, k =>
    match f args with
    | .error e => .error e
    | .ok v =>
      match goSliceFrom args n with
      | .error e => .error e
      | .ok args2 => runFuncArgs rest args2 (fun vs => k (v :: vs))

mutual

/-- `buildFuncFromEquality`: either delegates to the comparison, or composes
the two sub-evaluators with `evalOperator`, slicing the argument array at the
left consumed count. -/
def buildFuncFromEquality (ext : ExternalEval) : Equality → VarBin → Function × Nat × VarBin
  | .mk cmp op nxt, vars =>
    match nxt with
    | none => buildFuncFromComparison ext cmp vars
    | some next =>
      let r1 := buildFuncFromComparison ext cmp vars
      let r2 := buildFuncFromEquality ext next r1.2.2
      let f : Function := fun args =>
        match r1.1 args with
        | .error e => .error e
        | .ok v1 =>
          match goSliceFrom args r1.2.1 with
          | .error e => .error e
          | .ok rest =>
            match r2.1 rest with
            | .error e => .error e
            | .ok v2 => ext.evalOperator op [v1, v2]
      (f, r1.2.1 + r2.2.1, r2.2.2)

/-- `buildFuncFromComparison`. -/
def buildFuncFromComparison (ext : ExternalEval) : Comparison → VarBin → Function × Nat × VarBin
  | .mk a op nxt, vars =>
    match nxt with
    | none => buildFuncFromAddition ext a vars
    | some next =>
      let r1 := buildFuncFromAddition ext a vars
      let r2 := buildFuncFromComparison ext next r1.2.2
      let f : Function := fun args =>
        match r1.1 args with
        | .error e => .error e
        | .ok v1 =>
          match goSliceFrom args r1.2.1 with
          | .error e => .error e
          | .ok rest =>
            match r2.1 rest with
            | .error e => .error e
            | .ok v2 => ext.evalOperator op [v1, v2]
      (f, r1.2.1 + r2.2.1, r2.2.2)

/-- `buildFuncFromAddition`. -/
def buildFuncFromAddition (ext : ExternalEval) : Addition → VarBin → Function × Nat × VarBin
  | .mk m op nxt, vars =>
    match nxt with
    | none => buildFuncFromMultiplication ext m vars
    | some next =>
      let r1 := buildFuncFromMultiplication ext m vars
      let r2 := buildFuncFromAddition ext next r1.2.2
      let f : Function := fun args =>
        match r1.1 args with
        | .error e => .error e
        | .ok v1 =>
          match goSliceFrom args r1.2.1 with
          | .error e => .error e
          | .ok rest =>
            match r2.1 rest with
            | .error e => .error e
            | .ok v2 => ext.evalOperator op [v1, v2]
      (f, r1.2.1 + r2.2.1, r2.2.2)

/-- `buildFuncFromMultiplication`. -/
def buildFuncFromMultiplication (ext : ExternalEval) : Multiplication → VarBin → Function × Nat × VarBin
  | .mk u op nxt, vars =>
    match nxt with
    | none => buildFuncFromUnary ext u vars
    | some next =>
      let r1 := buildFuncFromUnary ext u vars
      let r2 := buildFuncFromMultiplication ext next r1.2.2
      let f : Function := fun args =>
        match r1.1 args with
        | .error e => .error e
        | .ok v1 =>
          match goSliceFrom args r1.2.1 with
          | .error e => .error e
          | .ok rest =>
            match r2.1 rest with
            | .error e => .error e
            | .ok v2 => ext.evalOperator op [v1, v2]
      (f, r1.2.1 + r2.2.1, r2.2.2)

/-- `buildFuncFromUnary`: sign application, sub-expressions, function calls,
literals (consuming 0), and reference leaves (consuming 1 and appending to the
bin).  The two dereferences of absent pointers that the Go code would perform
on an AST the parser cannot produce (`u.Primary == nil`, or all `Primary`
variants nil) are modelled as consuming 0 and evaluating to the corresponding
runtime panic. -/
def buildFuncFromUnary (ext : ExternalEval) : Unary → VarBin → Function × Nat × VarBin
  | .mk op u p, vars =>
    match u with
    | some inner =>
      let r := buildFuncFromUnary ext inner vars
      let f : Function := fun args =>
        match r.1 args with
        | .error e => .error e
        | .ok v => ext.evalOperator op [v]
      (f, r.2.1, r.2.2)
    | none =>
      match p with
      | none => (fun _ => .error (.goPanic "nil pointer dereference"), 0, vars)
      | some (.mk sub num st bo fn cr) =>
        match sub with
        | some s => buildFuncFromEquality ext s vars
        | none =>
          match fn with
          | some (.mk fname fargs) =>
            let rs := buildFuncArgs ext fargs vars
            let f : Function := fun args => runFuncArgs rs.1 args (fun values => ext.evalFunc fname values)
            (f, sumConsumed rs.1, rs.2)
          | none =>
            match bo with
            | some b => (fun _ => .ok (NewBoolValue b), 0, vars)
            | none =>
              match num with
              | some q => (fun _ => .ok (NewDecimalValue q), 0, vars)
              | none =>
                match st with
                | some s => (fun _ => .ok (NewStringValue s), 0, vars)
                | none =>
                  match cr with
                  | some range =>
                    let f : Function := fun args =>
                      if args.length = 0 then .error (.goPanic "too few arguments")
                      else .ok (args.headD .zero)
                    (f, 1, { Vars := vars.Vars ++ [newVar range] })
                  | none => (fun _ => .error (.goPanic "nil pointer dereference"), 0, vars)

/-- Compiles each function-call argument in order, threading the bin
(the `for i := range Arguments` compile loop). -/
def buildFuncArgs (ext : ExternalEval) : List Equality → VarBin → List (Function × Nat) × VarBin
  | [], vars => ([], vars)
  | a :: rest, vars =>
    let r := buildFuncFromEquality ext a vars
    let rs := buildFuncArgs ext rest r.2.2
    ((r.1, r.2.1) :: rs.1, rs.2)

end

/-- `formula.Parse`: parse the source text, then compile from an empty bin,
returning the evaluator and the bin (the consumed count is discarded, as in
the source).  Lexical and grammatical failures collapse into the error
result. -/
def Parse (ext : ExternalEval) (source : String) : Except String (Function × VarBin)
  :=
  match parseExpression source with
  | none => .error "unable to parse formula"
  | some e =>
    let r := buildFuncFromEquality ext e.equality ⟨[]⟩
    .ok (r.1, r.2.2)

/-! ### Left-to-right reference collection

The specification-side description of the variable bin: the references of a
formula in left-to-right source order (the order `Output` renders them).
Claim C2 compares the compiler's bin against this collection. -/

mutual

/-- References of an `Equality`, left to right. -/
def refsOfEquality : Equality → List Var
  | .mk cmp _ nxt =>
    refsOfComparison cmp ++ (match nxt with | some n => refsOfEquality n | none => [])

/-- References of a `Comparison`, left to right. -/
def refsOfComparison : Comparison → List Var
  | .mk a _ nxt =>
    refsOfAddition a ++ (match nxt with | some n => refsOfComparison n | none => [])

/-- References of an `Addition`, left to right. -/
def refsOfAddition : Addition → List Var
  | .mk m _ nxt =>
    refsOfMultiplication m ++ (match nxt with | some n => refsOfAddition n | none => [])

/-- References of a `Multiplication`, left to right. -/
def refsOfMultiplication : Multiplication → List Var
  | .mk u _ nxt =>
    refsOfUnary u ++ (match nxt with | some n => refsOfMultiplication n | none => [])

/-- References of a `Unary`, left to right, mirroring the compile order. -/
def refsOfUnary : Unary → List Var
  | .mk _ u p =>
    match u with
    | some inner => refsOfUnary inner
    | none =>
      match p with
      | none => []
      | some (.mk sub num st bo fn cr) =>
        match sub with
        | some s => refsOfEquality s
        | none =>
          match fn with
          | some (.mk _ fargs) => refsOfArgs fargs
          | none =>
            match bo with
            | some _ => []
            | none =>
              match num with
              | some _ => []
              | none =>
                match st with
                | some _ => []
                | none =>
                  match cr with
                  | some range => [newVar range]
                  | none => []

/-- References of the argument list of a call, left to right. -/
def refsOfArgs : List Equality → List Var
  | [] => []
  | a :: rest => refsOfEquality a ++ refsOfArgs rest

end

end formula

/-! ### The `sheet` cell value model -/

namespace sheet

/-- `CellValueUntyped` (iota 0). -/
def CellValueUntyped : Nat := 0
/-- `CellValueTypeEmpty`. -/
def CellValueTypeEmpty : Nat := 1
/-- `CellValueTypeText`. -/
def CellValueTypeText : Nat := 2
/-- `CellValueTypeInteger`. -/
def CellValueTypeInteger : Nat := 3
/-- `CellValueTypeDecimal`. -/
def CellValueTypeDecimal : Nat := 4
/-- `CellValueTypeBool`. -/
def CellValueTypeBool : Nat := 5
/-- `CellValueTypeFormula`. -/
def CellValueTypeFormula : Nat := 6

/-- `CellErrorTypeNoError` (iota 0). -/
def CellErrorTypeNoError : Nat := 0
/-- `CellErrorTypeFormulaError`. -/
def CellErrorTypeFormulaError : Nat := 1
/-- `CellErrorTypeRefError`. -/
def CellErrorTypeRefError : Nat := 2

/-- The `interface{}` second return of `guessCellType`: either no cast was
done, or the parsed boolean, the parsed `int64`, or the raw text. -/
inductive GuessCast where
  | none
  | bool (b : Bool)
  | int (i : Int)
  | str (s : String)
  deriving DecidableEq

/-- `sheet.Cell`: the type and error discriminants, the raw text, and the
union payload fields.  Go's nil pointers (`*decimal.Decimal`, the
`formula.Function`) are `Option`; `decimal.Decimal` is modelled as ℚ. -/
structure Cell where
  valueType : Nat
  errorType : Nat
  rawValue : String
  intValue : Int
  decimalValue : Option ℚ
  boolValue : Bool
  formulaValue : Option Function
  args : List Value

/-- `NewCellEmpty`. -/
def NewCellEmpty : Cell :=
  { valueType := CellValueTypeEmpty, errorType := CellErrorTypeNoError, rawValue := "",
    intValue := 0, decimalValue := none, boolValue := false, formulaValue := none, args := [] }

/-- `EraseValue`: reset every field to the empty state. -/
def Cell.EraseValue (_c : Cell) : Cell :=
  { rawValue := "", boolValue := false, intValue := 0, decimalValue := none,
    formulaValue := none, valueType := CellValueTypeEmpty, errorType := CellErrorTypeNoError,
    args := [] }

/-- `SetValueUntyped`: erase, then store the raw text as untyped. -/
def Cell.SetValueUntyped (c : Cell) (v : String) : Cell :=
  { c.EraseValue with valueType := CellValueUntyped, rawValue := v }

/-- `NewCellUntyped`. -/
def NewCellUntyped (v : String) : Cell := (NewCellEmpty.EraseValue).SetValueUntyped v

/-- `RawValue`: the raw text, no evaluation. -/
def Cell.RawValue (c : Cell) : String := c.rawValue

/-- `guessCellType`: empty, formula marker, then boolean / float / integer
parses in that order, else text.  Go indexes the first byte; for `'='` that
coincides with the first character. -/
def guessCellType (v : String) : Nat × GuessCast :=
  match v.data with
  | [] => (CellValueTypeEmpty, .none)
  | c :: rest =>
    if c = '=' ∧ rest ≠ [] then (CellValueTypeFormula, .none)
    else
      match goParseBool v with
      | some b => (CellValueTypeBool, .bool b)
      | none =>
        if goParseFloatAccepts v then (CellValueTypeDecimal, .none)
        else
          match goParseInt64 v with
          | some i => (CellValueTypeInteger, .int i)
          | none => (CellValueTypeText, .str v)

/-- Model of `shopspring/decimal.NewFromString` on the inputs that reach it
(strings accepted by the float parse): sign, digits with at most one dot, and
an optional decimal exponent, valued exactly.  On failure the call site keeps
the zero `decimal.Decimal`, so the model returns `none` there. -/
def decimalNewFromString (s : String) : Option ℚ :=
  let p : Bool × List Char := match s.data with
    | c :: r => if c = '-' then (true, r) else if c = '+' then (false, r) else (false, s.data)
    | [] => (false, [])
  match readDecFloat p.2 with
  | some (ds, e10) =>
    let q := (digitsToNat ds : ℚ) * pow10 (e10 - ds.length)
    some (if p.1 then -q else q)
  | none => none

/-- A document: the cell store behind the reference-resolution capability,
keyed by coordinate text.  Modelled from the spec: the registry interfaces
(`value.LinkRegistryInterface`, `RefRegistryInterface`) are external
collaborators resolving a coordinate to a link on another cell's value. -/
def Doc := List (String × Cell)

/-- Coordinate lookup in the document. -/
def lookupCell (doc : Doc) (k : String) : Option Cell :=
  match doc with
  | [] => none
  | (k2, c) :: rest => if k2 = k then some c else lookupCell rest k

/-- Modelled from the spec: `MakeLink` of the reference registry — "given a
cell coordinate and optional sheet name, return an opaque link value ... or
fail with a not-found/invalid-sheet error".  The model resolves against the
single-sheet document. -/
def docMakeLink (doc : Doc) (coord : String) (sheet : Option String) : Except String Value :=
  match sheet with
  | some _ => .error "invalid sheet"
  | none => if (lookupCell doc coord).isSome then .ok (NewLinkValue coord) else .error "no such cell"

/-- `makeLinks`: one resolved value per variable-bin entry, in order; a range
entry's loop body is commented out in the source, leaving the preallocated
zero `value.Value`; the first resolution error aborts with `nil`. -/
def makeLinksVars (doc : Doc) : List formula.Var → Except String (List Value)
  | [] => .ok []
  | v :: rest =>
    if v.CellTo.isSome then
      match makeLinksVars doc rest with
      | .error e => .error e
      | .ok vs => .ok (Value.zero :: vs)
    else
      match docMakeLink doc v.Cell.cell v.Cell.sheet with
      | .error e => .error e
      | .ok l =>
        match makeLinksVars doc rest with
        | .error e => .error e
        | .ok vs => .ok (l :: vs)

/-- `makeLinks` entry point over the bin. -/
def makeLinks (vb : formula.VarBin) (doc : Doc) : Except String (List Value) :=
  makeLinksVars doc vb.Vars

/-- `evaluateType`: runs `guessCellType`, caches the discriminant, and fills
the payload.  The integer branch's `castedV.(int)` assertion would panic at
runtime (the stored value is an `int64`); the branch is proved unreachable
(claim C9), and the model stores the integer.  For formulas: parse, record a
formula error, or resolve links, recording a reference error (Go assigns
`c.args = nil` before checking the `makeLinks` error). -/
def evaluateType (ext : formula.ExternalEval) (c : Cell) (doc : Doc) : Cell :=
  let g := guessCellType c.rawValue
  let t := g.1
  let c1 := { c with valueType := t }
  if t = CellValueTypeInteger then
    match g.2 with
    | .int i => { c1 with intValue := i }
    | _ => c1
  else if t = CellValueTypeDecimal then
    { c1 with decimalValue := some ((decimalNewFromString c1.rawValue).getD 0) }
  else if t = CellValueTypeBool then
    match g.2 with
    | .bool b => { c1 with boolValue := b }
    | _ => c1
  else if t = CellValueTypeFormula then
    let c2 := { c1 with formulaValue := none, args := [] }
    match formula.Parse ext c2.rawValue with
    | .error _ => { c2 with errorType := CellErrorTypeFormulaError }
    | .ok (f, vb) =>
      let c3 := { c2 with formulaValue := some f }
      match makeLinks vb doc with
      | .error _ => { c3 with args := [], errorType := CellErrorTypeRefError }
      | .ok vs => { c3 with args := vs }
  else c1

/-- Outcome of a Go `(value, error)` returning method, also distinguishing a
runtime panic and the model's fuel exhaustion on unboundedly recursive link
chains. -/
inductive GoRes (α : Type) where
  | ret (v : α) (err : Option String)
  | panicked (msg : String)
  | outOfFuel
  deriving DecidableEq

mutual

/-- `Cell.BoolValue`: lazy type resolution, then the boolean coercion ladder;
the formula branch evaluates the compiled function (a nil one — after a
formula error — is a nil-function call, i.e. a panic) and coerces the result. -/
def cellBoolValue (ext : formula.ExternalEval) : Nat → Doc → Cell → GoRes Bool
  | 0, _, _ => .outOfFuel
  | n + 1, doc, c0 =>
    let c := if c0.valueType = CellValueUntyped then evaluateType ext c0 doc else c0
    if c.valueType = CellValueTypeEmpty then .ret false none
    else if c.valueType = CellValueTypeText then .ret false (some "unable to cast text to bool")
    else if c.valueType = CellValueTypeInteger then .ret (decide (c.intValue ≠ 0)) none
    else if c.valueType = CellValueTypeDecimal then
      match c.decimalValue with
      | none => .panicked "nil pointer dereference"
      | some d => .ret (decide (¬ d = 0)) none
    else if c.valueType = CellValueTypeBool then .ret c.boolValue none
    else if c.valueType = CellValueTypeFormula then
      match c.formulaValue with
      | none => .panicked "nil function call"
      | some f =>
        match f c.args with
        | .error (.goPanic m) => .panicked m
        | .error (.goErr m) => .ret false (some m)
        | .ok v =>
          match valueBoolValue ext n doc v with
          | .outOfFuel => .outOfFuel
          | .panicked m => .panicked m
          | .ret _ (some e) => .ret false (some e)
          | .ret b none => .ret b none
    else .ret false none

/-- `Cell.DecimalValue`: the decimal coercion ladder. -/
def cellDecimalValue (ext : formula.ExternalEval) : Nat → Doc → Cell → GoRes ℚ
  | 0, _, _ => .outOfFuel
  | n + 1, doc, c0 =>
    let c := if c0.valueType = CellValueUntyped then evaluateType ext c0 doc else c0
    if c.valueType = CellValueTypeEmpty then .ret 0 none
    else if c.valueType = CellValueTypeText then .ret 0 (some "unable to cast text to decimal")
    else if c.valueType = CellValueTypeInteger then .ret (c.intValue : ℚ) none
    else if c.valueType = CellValueTypeDecimal then
      match c.decimalValue with
      | none => .panicked "nil pointer dereference"
      | some d => .ret d none
    else if c.valueType = CellValueTypeBool then .ret 0 (some "unable to cast bool to decimal")
    else if c.valueType = CellValueTypeFormula then
      match c.formulaValue with
      | none => .panicked "nil function call"
      | some f =>
        match f c.args with
        | .error (.goPanic m) => .panicked m
        | .error (.goErr m) => .ret 0 (some m)
        | .ok v =>
          match valueDecimalValue ext n doc v with
          | .outOfFuel => .outOfFuel
          | .panicked m => .panicked m
          | .ret _ (some e) => .ret 0 (some e)
          | .ret d none => .ret d none
    else .ret 0 none

/-- `Cell.StringValue`: formula cells evaluate and stringify, with both errors
discarded (`val, _ :=` / `sv, _ :=`); other cells return the raw text. -/
def cellStringValue (ext : formula.ExternalEval) : Nat → Doc → Cell → GoRes String
  | 0, _, _ => .outOfFuel
  | n + 1, doc, c0 =>
    let c := if c0.valueType = CellValueUntyped then evaluateType ext c0 doc else c0
    if c.valueType = CellValueTypeFormula then
      match c.formulaValue with
      | none => .panicked "nil function call"
      | some f =>
        match f c.args with
        | .error (.goPanic m) => .panicked m
        | .error (.goErr _) =>
          (match valueStringValue ext n doc Value.zero with
           | .outOfFuel => .outOfFuel
           | .panicked m => .panicked m
           | .ret s _ => .ret s none)
        | .ok v =>
          match valueStringValue ext n doc v with
          | .outOfFuel => .outOfFuel
          | .panicked m => .panicked m
          | .ret s _ => .ret s none
    else .ret c.rawValue none

/-- `Cell.Value`: the generic typed accessor; a discriminant outside the
switch hits the trailing `panic("unsupported type")`. -/
def cellValue (ext : formula.ExternalEval) : Nat → Doc → Cell → GoRes Value
  | 0, _, _ => .outOfFuel
  | _ + 1, doc, c0 =>
    let c := if c0.valueType = CellValueUntyped then evaluateType ext c0 doc else c0
    if c.valueType = CellValueTypeEmpty then .ret (NewStringValue "") none
    else if c.valueType = CellValueTypeText then .ret (NewStringValue c.rawValue) none
    else if c.valueType = CellValueTypeInteger then .ret (NewDecimalValue (c.intValue : ℚ)) none
    else if c.valueType = CellValueTypeDecimal then
      match c.decimalValue with
      | none => .panicked "nil pointer dereference"
      | some d => .ret (NewDecimalValue d) none
    else if c.valueType = CellValueTypeBool then .ret (NewBoolValue c.boolValue) none
    else if c.valueType = CellValueTypeFormula then
      match c.formulaValue with
      | none => .panicked "nil function call"
      | some f =>
        match f c.args with
        | .error (.goPanic m) => .panicked m
        | .error (.goErr m) => .ret Value.zero (some m)
        | .ok v => .ret v none
    else .panicked "unsupported type"

/-- Modelled from the spec: `value.Value.BoolValue` — typed variants coerce as
at the cell level, and a link lazily queries the target cell's boolean value
through the document. -/
def valueBoolValue (ext : formula.ExternalEval) : Nat → Doc → Value → GoRes Bool
  | 0, _, _ => .outOfFuel
  | n + 1, doc, v =>
    match v with
    | .zero => .ret false (some "empty value")
    | .str _ => .ret false (some "unable to cast text to bool")
    | .dec d => .ret (decide (¬ d = 0)) none
    | .bool b => .ret b none
    | .link coord =>
      match lookupCell doc coord with
      | none => .ret false (some "broken link")
      | some c => cellBoolValue ext n doc c

/-- Modelled from the spec: `value.Value.DecimalValue`. -/
def valueDecimalValue (ext : formula.ExternalEval) : Nat → Doc → Value → GoRes ℚ
  | 0, _, _ => .outOfFuel
  | n + 1, doc, v =>
    match v with
    | .zero => .ret 0 (some "empty value")
    | .str _ => .ret 0 (some "unable to cast text to decimal")
    | .dec d => .ret d none
    | .bool _ => .ret 0 (some "unable to cast bool to decimal")
    | .link coord =>
      match lookupCell doc coord with
      | none => .ret 0 (some "broken link")
      | some c => cellDecimalValue ext n doc c

/-- Modelled from the spec: `value.Value.StringValue` — best-effort display
text; a link stringifies the target cell. -/
def valueStringValue (ext : formula.ExternalEval) : Nat → Doc → Value → GoRes String
  | 0, _, _ => .outOfFuel
  | n + 1, doc, v =>
    match v with
    | .zero => .ret "" none
    | .str s => .ret s none
    | .dec d => .ret (toString d) none
    | .bool b => .ret (if b then "TRUE" else "FALSE") none
    | .link coord =>
      match lookupCell doc coord with
      | none => .ret "" (some "broken link")
      | some c => cellStringValue ext n doc c

end

end sheet

/-! ### The `eval` evaluation context -/

namespace eval

/-- `eval.CellRef`: the struct itself is declared in a source file not under
`src/`; the content fields are modelled from the spec ("an optional sheet-name
qualifier plus a cell coordinate string").  `ptr` models the Go heap identity
of the `*CellRef` pointer, which is what the visited map is keyed by. -/
structure CellRef where
  ptr : Nat
  sheet : Option String
  cell : String
  deriving DecidableEq

/-- `eval.Context`: the reference-resolution capability and the visited set —
a `map[*CellRef]bool`, so membership is by pointer identity. -/
structure Context where
  DataProvider : sheet.Doc
  visitedCells : List Nat

/-- `NewContext`: binds the capability and calls `Reset`. -/
def NewContext (dp : sheet.Doc) : Context := { DataProvider := dp, visitedCells := [] }

/-- `Reset`: a fresh empty visited map. -/
def Context.Reset (ec : Context) : Context := { ec with visitedCells := [] }

/-- `AddVisited`: marks the pointer in the visited map. -/
def Context.AddVisited (ec : Context) (r : CellRef) : Context :=
  { ec with visitedCells := r.ptr :: ec.visitedCells }

/-- `Visited`: map membership of the pointer. -/
def Context.Visited (ec : Context) (r : CellRef) : Bool := ec.visitedCells.contains r.ptr

end eval

/-! ### Claim theorems -/

open formula sheet

/-- A concrete external operator/function capability used by witnesses. -/
def trivialExternalEval : ExternalEval :=
  ⟨fun _ _ => .error (.goErr "unknown operator"), fun _ _ => .error (.goErr "unknown function")⟩

/-- C1, counterexample: the claim says `"1"` infers as integer 1 because its
boolean parse must fail; but Go `strconv.ParseBool` accepts `"1"`, so type
inference yields the boolean type with value `true`, not the integer type. -/
theorem c1_counterexample :
    guessCellType "1" = (CellValueTypeBool, .bool true) ∧
      CellValueTypeBool ≠ CellValueTypeInteger := by
  constructor
  · rfl
  · decide

set_option maxRecDepth 8000 in
/-- C1, amended: lazy type inference applies the fixed priority (empty,
formula marker, boolean, float-as-decimal, integer, text); `"TRUE"` infers as
boolean true, `"1"` infers as boolean true as well (Go's boolean parse accepts
it, so the integer parse is never reached), `"1.5"` infers as decimal 3/2,
`""` infers as empty, and `"hello"` infers as text `"hello"`. -/
theorem c1_amended (ext : ExternalEval) (doc : Doc) :
    ((evaluateType ext (NewCellUntyped "TRUE") doc).valueType = CellValueTypeBool ∧
      (evaluateType ext (NewCellUntyped "TRUE") doc).boolValue = true) ∧
    ((evaluateType ext (NewCellUntyped "1") doc).valueType = CellValueTypeBool ∧
      (evaluateType ext (NewCellUntyped "1") doc).boolValue = true) ∧
    ((evaluateType ext (NewCellUntyped "1.5") doc).valueType = CellValueTypeDecimal ∧
      (evaluateType ext (NewCellUntyped "1.5") doc).decimalValue = some (3 / 2)) ∧
    (evaluateType ext (NewCellUntyped "") doc).valueType = CellValueTypeEmpty ∧
    ((evaluateType ext (NewCellUntyped "hello") doc).valueType = CellValueTypeText ∧
      (evaluateType ext (NewCellUntyped "hello") doc).rawValue = "hello") := by
  have hg : guessCellType "1.5" = (CellValueTypeDecimal, GuessCast.none) := by decide
  have hdata : "1.5".data = ['1', '.', '5'] := rfl
  have hr : readDecFloat ['1', '.', '5'] = some (['1', '5'], (1 : Int)) := by decide
  have h15 : digitsToNat ['1', '5'] = 15 := by decide
  have hd : decimalNewFromString "1.5" = some (3 / 2 : ℚ) := by
    simp +decide [decimalNewFromString, hdata, hr, h15]
    norm_num [pow10]
  refine ⟨⟨rfl, rfl⟩, ⟨rfl, rfl⟩, ⟨?_, ?_⟩, rfl, rfl, rfl⟩ <;>
    simp [evaluateType, NewCellUntyped, NewCellEmpty, Cell.EraseValue, Cell.SetValueUntyped,
      hg, hd, CellValueTypeDecimal, CellValueTypeInteger, CellValueTypeBool,
      CellValueTypeFormula]

/-- C8: a fresh context reports every reference unvisited; after
`AddVisited r`, `Visited r` holds; and `Reset` clears the visited set no
matter what was added before it. -/
theorem c8_context_ops :
    (∀ (dp : Doc) (r : eval.CellRef), (eval.NewContext dp).Visited r = false) ∧
    (∀ (ctx : eval.Context) (r : eval.CellRef), (ctx.AddVisited r).Visited r = true) ∧
    (∀ (ctx : eval.Context) (r : eval.CellRef), ctx.Reset.Visited r = false) := by
  refine ⟨fun dp r => rfl, fun ctx r => ?_, fun ctx r => rfl⟩
  simp [eval.Context.AddVisited, eval.Context.Visited]

/-- C10: the visited set is keyed by pointer identity, so marking `r` leaves
any reference object with a different identity unvisited, even when sheet and
coordinate coincide. -/
theorem c10_pointer_identity (dp : Doc) (r r2 : eval.CellRef) (h : r.ptr ≠ r2.ptr) :
    ((eval.NewContext dp).AddVisited r).Visited r2 = false := by
  simp [eval.NewContext, eval.Context.AddVisited, eval.Context.Visited]
  omega

/-- C10 witness: two distinct reference objects with identical sheet and
coordinate; the second stays unvisited. -/
theorem c10_pointer_identity_witness :
    ((eval.NewContext []).AddVisited ⟨0, none, "A1"⟩).Visited ⟨1, none, "A1"⟩ = false :=
  c10_pointer_identity [] ⟨0, none, "A1"⟩ ⟨1, none, "A1"⟩ (by decide)

/-- C6: on a boolean-typed cell `DecimalValue` returns the bool-to-decimal
cast error; on a text-typed cell `BoolValue` returns the text-to-bool cast
error; on an empty cell `DecimalValue` returns zero and `BoolValue` returns
false, both without error. -/
theorem c6_coercions (ext : ExternalEval) (fuel : Nat) (doc : Doc) (c : sheet.Cell) :
    (c.valueType = CellValueTypeBool →
      cellDecimalValue ext (fuel + 1) doc c = .ret 0 (some "unable to cast bool to decimal")) ∧
    (c.valueType = CellValueTypeText →
      cellBoolValue ext (fuel + 1) doc c = .ret false (some "unable to cast text to bool")) ∧
    (c.valueType = CellValueTypeEmpty →
      cellDecimalValue ext (fuel + 1) doc c = .ret 0 none ∧
        cellBoolValue ext (fuel + 1) doc c = .ret false none) := by
  refine ⟨fun h => ?_, fun h => ?_, fun h => ⟨?_, ?_⟩⟩ <;>
    simp [cellDecimalValue, cellBoolValue, h, CellValueUntyped, CellValueTypeEmpty,
      CellValueTypeText, CellValueTypeInteger, CellValueTypeDecimal, CellValueTypeBool,
      CellValueTypeFormula]

/-- C6 witness: concrete boolean-typed, text-typed and empty cells, read with
the trivial capability over the empty document. -/
theorem c6_coercions_witness :
    cellDecimalValue trivialExternalEval 1 []
        { NewCellEmpty with valueType := CellValueTypeBool, boolValue := true } =
      .ret 0 (some "unable to cast bool to decimal") ∧
    cellBoolValue trivialExternalEval 1 []
        { NewCellEmpty with valueType := CellValueTypeText, rawValue := "hi" } =
      .ret false (some "unable to cast text to bool") ∧
    cellDecimalValue trivialExternalEval 1 [] NewCellEmpty = .ret 0 none ∧
    cellBoolValue trivialExternalEval 1 [] NewCellEmpty = .ret false none := by
  refine ⟨(c6_coercions trivialExternalEval 0 [] _).1 rfl,
    (c6_coercions trivialExternalEval 0 [] _).2.1 rfl,
    ((c6_coercions trivialExternalEval 0 [] NewCellEmpty).2.2 rfl).1,
    ((c6_coercions trivialExternalEval 0 [] NewCellEmpty).2.2 rfl).2⟩

/-! ### Supporting lemmas for claim C9 -/

theorem no_underscore_of_digits (ds : List Char) (h : ds.all isDigit = true) :
    ds.contains '_' = false := by
  induction ds with
  | nil => rfl
  | cons c cs ih =>
    simp only [List.all_cons, Bool.and_eq_true] at h
    have hc : ¬ c = '_' := by
      intro he
      subst he
      simp [isDigit] at h
    simp only [List.contains_cons, ih h.2, Bool.or_false]
    simp
    exact fun he => absurd he.symm hc

theorem takeWhile_of_all_digits (ds : List Char) (h : ds.all isDigit = true) :
    ds.takeWhile isDigit = ds :=
  List.takeWhile_eq_self_iff.mpr (by simpa [List.all_eq_true] using h)

theorem dropWhile_of_all_digits (ds : List Char) (h : ds.all isDigit = true) :
    ds.dropWhile isDigit = [] :=
  List.dropWhile_eq_nil_iff.mpr (by simpa [List.all_eq_true] using h)

theorem readDecFloat_digits (ds : List Char) (h1 : ds ≠ []) (h : ds.all isDigit = true) :
    readDecFloat ds = some (ds, (ds.length : Int)) := by
  unfold readDecFloat
  rw [takeWhile_of_all_digits ds h, dropWhile_of_all_digits ds h]
  simp [h1]

theorem toLower_of_digit (c : Char) (h : isDigit c = true) : c.toLower = c := by
  simp only [isDigit, Bool.and_eq_true, decide_eq_true_eq] at h
  simp only [Char.toLower, Char.toNat] at *
  rw [if_neg]
  omega

theorem isSpecialFloat_digits (b : Bool) (ds : List Char) (h1 : ds ≠ [])
    (h : ds.all isDigit = true) : isSpecialFloat b ds = false := by
  obtain ⟨c, cs, rfl⟩ : ∃ c cs, ds = c :: cs := by
    cases ds with
    | nil => exact absurd rfl h1
    | cons c cs => exact ⟨c, cs, rfl⟩
  simp only [List.all_cons, Bool.and_eq_true] at h
  have hlow : c.toLower = c := toLower_of_digit c h.1
  have hn : c.toNat ≤ 57 := by
    have := h.1
    simp only [isDigit, Bool.and_eq_true, decide_eq_true_eq] at this
    exact this.2
  have hi : ¬ c = 'i' := fun he => absurd (he ▸ hn) (by decide)
  have hnn : ¬ c = 'n' := fun he => absurd (he ▸ hn) (by decide)
  simp only [isSpecialFloat, eqFold, Bool.or_eq_false_iff, Bool.and_eq_false_iff]
  refine ⟨⟨?_, ?_⟩, ?_⟩
  · simp [String.mk, hlow]
    intro he
    exact absurd he hi
  · simp [String.mk, hlow]
    intro he
    exact absurd he hi
  · right
    simp [String.mk, hlow]
    intro he
    exact absurd he hnn

theorem pow_ten_nineteen : (2 : ℕ) ^ 63 < 10 ^ 19 := by norm_num

theorem boundary_large : (2 : ℕ) ^ 63 < maxFloat64Boundary := by
  have h1 : (2 : ℕ) ^ 970 ≤ 2 ^ 1023 := Nat.pow_le_pow_right (by norm_num) (by norm_num)
  have h2 : (2 : ℕ) ^ 1024 = 2 ^ 1023 * 2 := by ring
  have h3 : (2 : ℕ) ^ 63 < 2 ^ 1023 := Nat.pow_lt_pow_right (by norm_num) (by norm_num)
  simp only [maxFloat64Boundary]
  omega

theorem decFloatInRange_digits (ds : List Char) (h : ds.all isDigit = true)
    (hb : digitsToNat ds ≤ 2 ^ 63) : decFloatInRange ds (ds.length : Int) = true := by
  by_cases hsig : ds.dropWhile (· = '0') = []
  · simp [decFloatInRange, hsig]
  · obtain ⟨c, cs, hcons⟩ : ∃ c cs, ds.dropWhile (· = '0') = c :: cs := by
      cases hd : ds.dropWhile (· = '0') with
      | nil => exact absurd hd hsig
      | cons c cs => exact ⟨c, cs, rfl⟩
    have hc0 : ¬ c = '0' := by
      have hl : 0 < (ds.dropWhile (· = '0')).length := by simp [hcons]
      have := List.dropWhile_get_zero_not (· = '0') ds hl
      simpa [hcons] using this
    have hcd : isDigit c = true := by
      have hsub : List.Sublist (ds.dropWhile (· = '0')) ds := List.dropWhile_sublist _
      have hmem : c ∈ ds := hsub.subset (by simp [hcons])
      exact List.all_eq_true.mp h c hmem
    have hval : 10 ^ cs.length ≤ digitsToNat ds := by
      calc 10 ^ cs.length ≤ digitsToNat (c :: cs) := digitsToNat_ge_pow c cs hcd hc0
        _ = digitsToNat (ds.dropWhile (· = '0')) := by rw [hcons]
        _ = digitsToNat ds := digitsToNat_dropWhile_zero ds
    have hlen : cs.length < 19 := by
      by_contra hlen
      push_neg at hlen
      have : (10 : ℕ) ^ 19 ≤ 10 ^ cs.length := Nat.pow_le_pow_right (by norm_num) hlen
      have := le_trans this (le_trans hval hb)
      exact absurd this (not_le.mpr pow_ten_nineteen)
    have hsiglen : (ds.dropWhile (· = '0')).length ≤ ds.length :=
      List.Sublist.length_le (List.dropWhile_sublist _)
    rw [hcons] at hsiglen
    have hle : cs.length + 1 ≤ ds.length := by simpa using hsiglen
    simp only [decFloatInRange, hcons, List.length_cons]
    rw [if_neg (by simp)]
    rw [if_neg (by push_cast; omega)]
    rw [if_neg (by push_cast; omega)]
    have hk : ((ds.length : Int) - (ds.length : Int)) = 0 := by omega
    rw [hk]
    rw [if_pos (by omega)]
    simp only [Int.toNat_zero, pow_zero, Nat.mul_one]
    exact decide_eq_true (lt_of_le_of_lt hb boundary_large)

theorem goParseIntDigits_some (neg : Bool) (ds : List Char) (i : Int)
    (h : goParseIntDigits neg ds = some i) :
    ds ≠ [] ∧ ds.all isDigit = true ∧ digitsToNat ds ≤ 2 ^ 63 := by
  unfold goParseIntDigits at h
  by_cases hc : ds = [] ∨ ¬ (ds.all isDigit = true)
  · rw [if_pos hc] at h
    exact absurd h (by simp)
  · push_neg at hc
    refine ⟨hc.1, hc.2, ?_⟩
    rw [if_neg (by simp [hc.1, hc.2])] at h
    cases neg with
    | true =>
      simp only [if_true] at h
      by_cases h2 : digitsToNat ds ≤ 2 ^ 63
      · exact h2
      · rw [if_neg h2] at h
        exact absurd h (by simp)
    | false =>
      simp only [Bool.false_eq_true, if_false] at h
      by_cases h2 : digitsToNat ds ≤ 2 ^ 63 - 1
      · omega
      · rw [if_neg h2] at h
        exact absurd h (by simp)

theorem goParseFloatBody_digits (b : Bool) (ds : List Char) (hne : ds ≠ [])
    (hall : ds.all isDigit = true) (hb : digitsToNat ds ≤ 2 ^ 63) :
    goParseFloatBody b ds = true := by
  unfold goParseFloatBody
  rw [isSpecialFloat_digits b ds hne hall]
  simp only [Bool.false_eq_true, if_false]
  rw [readDecFloat_digits ds hne hall]
  exact decFloatInRange_digits ds hall hb

theorem parseInt_implies_floatAccepts (s : String) (i : Int) (h : goParseInt64 s = some i) :
    goParseFloatAccepts s = true := by
  unfold goParseInt64 at h
  unfold goParseFloatAccepts
  cases hdata : s.data with
  | nil =>
    rw [hdata] at h
    exact absurd h (by simp)
  | cons c rest =>
    rw [hdata] at h
    simp only at h
    by_cases hplus : c = '+'
    · subst hplus
      rw [if_pos rfl] at h
      obtain ⟨hne, hall, hb⟩ := goParseIntDigits_some false rest i h
      have hnu : (('+' :: rest).contains '_') = false := by
        simp only [List.contains_cons, no_underscore_of_digits rest hall, Bool.or_false]
        decide
      simp only [hnu, Bool.false_eq_true, if_false]
      simp only [goParseFloatAcceptsNoU, true_or, if_true]
      exact goParseFloatBody_digits true rest hne hall hb
    · by_cases hminus : c = '-'
      · subst hminus
        rw [if_neg (by decide), if_pos rfl] at h
        obtain ⟨hne, hall, hb⟩ := goParseIntDigits_some true rest i h
        have hnu : (('-' :: rest).contains '_') = false := by
          simp only [List.contains_cons, no_underscore_of_digits rest hall, Bool.or_false]
          decide
        simp only [hnu, Bool.false_eq_true, if_false]
        simp only [goParseFloatAcceptsNoU, or_true, if_true]
        exact goParseFloatBody_digits true rest hne hall hb
      · rw [if_neg hplus, if_neg hminus] at h
        obtain ⟨hne, hall, hb⟩ := goParseIntDigits_some false (c :: rest) i h
        have hcd : isDigit c = true := List.all_eq_true.mp hall c (by simp)
        have hcne : ('_' == c) = false := by
          rw [beq_eq_false_iff_ne]
          intro he
          rw [← he] at hcd
          simp [isDigit] at hcd
        have hnu : ((c :: rest).contains '_') = false := by
          have hrest : rest.all isDigit = true := by
            simp only [List.all_cons, Bool.and_eq_true] at hall
            exact hall.2
          simp only [List.contains_cons, no_underscore_of_digits rest hrest, Bool.or_false]
          exact hcne
        simp only [hnu, Bool.false_eq_true, if_false]
        simp only [goParseFloatAcceptsNoU]
        have hcp : ¬ (c = '+' ∨ c = '-') := by
          intro hx
          cases hx with
          | inl hx => exact hplus hx
          | inr hx => exact hminus hx
        rw [if_neg hcp]
        exact goParseFloatBody_digits false (c :: rest) hne hall hb


/-- The cached discriminant after `evaluateType` is exactly what
`guessCellType` inferred. -/
theorem evaluateType_valueType (ext : ExternalEval) (c : sheet.Cell) (doc : Doc) :
    (evaluateType ext c doc).valueType = (guessCellType c.rawValue).1 := by
  unfold evaluateType
  set g := guessCellType c.rawValue with hg
  by_cases h1 : g.1 = CellValueTypeInteger
  · rw [if_pos h1]
    cases g.2 <;> simp [h1]
  · rw [if_neg h1]
    by_cases h2 : g.1 = CellValueTypeDecimal
    · simp [h2]
    · rw [if_neg h2]
      by_cases h3 : g.1 = CellValueTypeBool
      · rw [if_pos h3]
        cases g.2 <;> simp [h3]
      · rw [if_neg h3]
        by_cases h4 : g.1 = CellValueTypeFormula
        · rw [if_pos h4]
          cases hP : formula.Parse ext c.rawValue with
          | error e => simp [hP, h4]
          | ok fv =>
            obtain ⟨f, vb⟩ := fv
            cases hL : makeLinks vb doc with
            | error e2 => simp [hP, hL, h4]
            | ok vs => simp [hP, hL, h4]
        · rw [if_neg h4]

/-- C9: type inference can never produce the integer discriminant — every
string the 64-bit integer parse accepts is already accepted by the preceding
float parse — so the integer branch of `evaluateType` (whose `interface{}`
assertion of an `int64` to `int` would panic) is unreachable from
`SetValueUntyped` followed by any typed read. -/
theorem c9_no_integer_type (s : String) :
    (guessCellType s).1 ≠ CellValueTypeInteger ∧
      ∀ (ext : ExternalEval) (doc : Doc),
        (evaluateType ext (NewCellUntyped s) doc).valueType ≠ CellValueTypeInteger := by
  have hmain : (guessCellType s).1 ≠ CellValueTypeInteger := by
    unfold guessCellType
    cases hdata : s.data with
    | nil => simp [CellValueTypeEmpty, CellValueTypeInteger]
    | cons c rest =>
      simp only []
      by_cases hm : c = '=' ∧ rest ≠ []
      · rw [if_pos hm]
        simp [CellValueTypeFormula, CellValueTypeInteger]
      · rw [if_neg hm]
        cases hpb : goParseBool s with
        | some b => simp [CellValueTypeBool, CellValueTypeInteger]
        | none =>
          by_cases hf : goParseFloatAccepts s = true
          · simp only [hf, if_true]
            simp [CellValueTypeDecimal, CellValueTypeInteger]
          · simp only [hf, Bool.false_eq_true, if_false]
            cases hint : goParseInt64 s with
            | some i => exact absurd (parseInt_implies_floatAccepts s i hint) hf
            | none => simp [CellValueTypeText, CellValueTypeInteger]
  refine ⟨hmain, fun ext doc => ?_⟩
  rw [evaluateType_valueType]
  simpa using hmain

/-! ### Claims C3, C4, C7: crash, print/parse round trip, cycles -/

/-- The document of claim C3: only `A1` exists, so `A2` cannot be resolved. -/
def docOnlyA1 : Doc := [("A1", NewCellUntyped "1")]

/-- C3 (code bug): for raw text `=SUM(A1,A2)` whose `A2` fails to resolve,
`makeLinks` aborts, the cell enters ReferenceError state with `args = nil` —
and `StringValue` then invokes the compiled evaluator on the empty argument
array, panicking with "too few arguments" instead of surfacing an error. -/
theorem c3_stringvalue_panics (ext : ExternalEval) (n : Nat) :
    cellStringValue ext (n + 1) docOnlyA1 (NewCellUntyped "=SUM(A1,A2)") =
      .panicked "too few arguments" := by
  rfl

/-- The AST of the formula `="x"`: a bare string-literal primary. -/
def astStringX : Expression :=
  ⟨.mk (.mk (.mk (.mk (.mk "" none (some (.mk none none (some "x") none none none)))
    "" none) "" none) "" none) "" none⟩

/-- C4 (code bug): `="x"` parses to the string-literal AST, but the printer
renders it without quotes as `=x`, on which the lexer fails (no token pattern
matches `x`), so the printed text cannot be re-parsed at all. -/
theorem c4_roundtrip_fails :
    parseExpression "=\"x\"" = some astStringX ∧
      Expression.String astStringX = "=x" ∧
      lexFormula "=x" = none := by
  refine ⟨rfl, rfl, rfl⟩

/-- The mutually referencing document of claim C7: `A1` holds `=B1` and `B1`
holds `=A1`. -/
def docCycle : Doc := [("A1", NewCellUntyped "=B1"), ("B1", NewCellUntyped "=A1")]

/-- C7 (code bug): evaluating either cell of the direct two-cycle never
completes within any recursion budget — the visited bookkeeping is never
consulted, so the evaluation chain `A1 → B1 → A1 → ...` recurses without
bound instead of stopping with a cycle condition. -/
theorem c7_cycle_diverges (ext : ExternalEval) (n : Nat) :
    cellStringValue ext n docCycle (NewCellUntyped "=B1") = .outOfFuel ∧
      cellStringValue ext n docCycle (NewCellUntyped "=A1") = .outOfFuel := by
  induction n using Nat.strong_induction_on with
  | _ n ih =>
    match n with
    | 0 => exact ⟨rfl, rfl⟩
    | 1 => exact ⟨rfl, rfl⟩
    | m + 2 =>
      constructor
      · have h1 : cellStringValue ext (m + 2) docCycle (NewCellUntyped "=B1") =
            (match cellStringValue ext m docCycle (NewCellUntyped "=A1") with
             | GoRes.outOfFuel => GoRes.outOfFuel
             | GoRes.panicked msg => GoRes.panicked msg
             | GoRes.ret s _ => GoRes.ret s none) := rfl
        rw [h1, (ih m (by omega)).2]
      · have h2 : cellStringValue ext (m + 2) docCycle (NewCellUntyped "=A1") =
            (match cellStringValue ext m docCycle (NewCellUntyped "=B1") with
             | GoRes.outOfFuel => GoRes.outOfFuel
             | GoRes.panicked msg => GoRes.panicked msg
             | GoRes.ret s _ => GoRes.ret s none) := rfl
        rw [h2, (ih m (by omega)).1]

/-! ### Claim C2: the variable bin invariant -/

mutual

theorem buildFuncFromEquality_refs (ext : ExternalEval) :
    (e : Equality) → (vb : VarBin) →
    (buildFuncFromEquality ext e vb).2.2.Vars = vb.Vars ++ refsOfEquality e ∧
      (buildFuncFromEquality ext e vb).2.1 = (refsOfEquality e).length
  | .mk cmp op none, vb => by
    simpa [buildFuncFromEquality, refsOfEquality] using buildFuncFromComparison_refs ext cmp vb
  | .mk cmp op (some nxt), vb => by
    have h1 := buildFuncFromComparison_refs ext cmp vb
    have h2 := buildFuncFromEquality_refs ext nxt (buildFuncFromComparison ext cmp vb).2.2
    simp only [buildFuncFromEquality, refsOfEquality]
    refine ⟨?_, ?_⟩
    · rw [h2.1, h1.1, List.append_assoc]
    · rw [h2.2, h1.2, List.length_append]

termination_by e vb => sizeOf e

theorem buildFuncFromComparison_refs (ext : ExternalEval) :
    (e : Comparison) → (vb : VarBin) →
    (buildFuncFromComparison ext e vb).2.2.Vars = vb.Vars ++ refsOfComparison e ∧
      (buildFuncFromComparison ext e vb).2.1 = (refsOfComparison e).length
  | .mk a op none, vb => by
    simpa [buildFuncFromComparison, refsOfComparison] using buildFuncFromAddition_refs ext a vb
  | .mk a op (some nxt), vb => by
    have h1 := buildFuncFromAddition_refs ext a vb
    have h2 := buildFuncFromComparison_refs ext nxt (buildFuncFromAddition ext a vb).2.2
    simp only [buildFuncFromComparison, refsOfComparison]
    refine ⟨?_, ?_⟩
    · rw [h2.1, h1.1, List.append_assoc]
    · rw [h2.2, h1.2, List.length_append]

termination_by e vb => sizeOf e

theorem buildFuncFromAddition_refs (ext : ExternalEval) :
    (e : Addition) → (vb : VarBin) →
    (buildFuncFromAddition ext e vb).2.2.Vars = vb.Vars ++ refsOfAddition e ∧
      (buildFuncFromAddition ext e vb).2.1 = (refsOfAddition e).length
  | .mk m op none, vb => by
    simpa [buildFuncFromAddition, refsOfAddition] using buildFuncFromMultiplication_refs ext m vb
  | .mk m op (some nxt), vb => by
    have h1 := buildFuncFromMultiplication_refs ext m vb
    have h2 := buildFuncFromAddition_refs ext nxt (buildFuncFromMultiplication ext m vb).2.2
    simp only [buildFuncFromAddition, refsOfAddition]
    refine ⟨?_, ?_⟩
    · rw [h2.1, h1.1, List.append_assoc]
    · rw [h2.2, h1.2, List.length_append]

termination_by e vb => sizeOf e

theorem buildFuncFromMultiplication_refs (ext : ExternalEval) :
    (e : Multiplication) → (vb : VarBin) →
    (buildFuncFromMultiplication ext e vb).2.2.Vars = vb.Vars ++ refsOfMultiplication e ∧
      (buildFuncFromMultiplication ext e vb).2.1 = (refsOfMultiplication e).length
  | .mk u op none, vb => by
    simpa [buildFuncFromMultiplication, refsOfMultiplication] using
      buildFuncFromUnary_refs ext u vb
  | .mk u op (some nxt), vb => by
    have h1 := buildFuncFromUnary_refs ext u vb
    have h2 := buildFuncFromMultiplication_refs ext nxt (buildFuncFromUnary ext u vb).2.2
    simp only [buildFuncFromMultiplication, refsOfMultiplication]
    refine ⟨?_, ?_⟩
    · rw [h2.1, h1.1, List.append_assoc]
    · rw [h2.2, h1.2, List.length_append]

termination_by e vb => sizeOf e

theorem buildFuncFromUnary_refs (ext : ExternalEval) :
    (e : Unary) → (vb : VarBin) →
    (buildFuncFromUnary ext e vb).2.2.Vars = vb.Vars ++ refsOfUnary e ∧
      (buildFuncFromUnary ext e vb).2.1 = (refsOfUnary e).length
  | .mk op (some inner) p, vb => buildFuncFromUnary_refs ext inner vb
  | .mk op none none, vb => ⟨(List.append_nil vb.Vars).symm, rfl⟩
  | .mk op none (some (.mk (some sub) num st bo fn cr)), vb =>
    buildFuncFromEquality_refs ext sub vb
  | .mk op none (some (.mk none num st bo (some (.mk fname fargs)) cr)), vb =>
    have h := buildFuncArgs_refs ext fargs vb
    ⟨h.1, h.2⟩
  | .mk op none (some (.mk none num st (some b0) none cr)), vb =>
    ⟨(List.append_nil vb.Vars).symm, rfl⟩
  | .mk op none (some (.mk none (some q) st none none cr)), vb =>
    ⟨(List.append_nil vb.Vars).symm, rfl⟩
  | .mk op none (some (.mk none none (some s0) none none cr)), vb =>
    ⟨(List.append_nil vb.Vars).symm, rfl⟩
  | .mk op none (some (.mk none none none none none (some range))), vb => ⟨rfl, rfl⟩
  | .mk op none (some (.mk none none none none none none)), vb =>
    ⟨(List.append_nil vb.Vars).symm, rfl⟩

termination_by e vb => sizeOf e

theorem buildFuncArgs_refs (ext : ExternalEval) :
    (args : List Equality) → (vb : VarBin) →
    (buildFuncArgs ext args vb).2.Vars = vb.Vars ++ refsOfArgs args ∧
      sumConsumed (buildFuncArgs ext args vb).1 = (refsOfArgs args).length
  | [], vb => by
    simp [buildFuncArgs, refsOfArgs, sumConsumed]
  | a :: rest, vb => by
    have h1 := buildFuncFromEquality_refs ext a vb
    have h2 := buildFuncArgs_refs ext rest (buildFuncFromEquality ext a vb).2.2
    simp only [buildFuncArgs, refsOfArgs, sumConsumed, List.map_cons, List.sum_cons]
    refine ⟨?_, ?_⟩
    · rw [h2.1, h1.1, List.append_assoc]
    · have h2s : sumConsumed (buildFuncArgs ext rest (buildFuncFromEquality ext a vb).2.2).1 =
          (refsOfArgs rest).length := h2.2
      simp only [sumConsumed] at h2s
      rw [h1.2, h2s, List.length_append]
termination_by args vb => sizeOf args

end

/-- C2: compilation appends exactly one descriptor per cell/range reference,
in left-to-right source order (the bin grows by `refsOfEquality e`), the
consumed-argument count of the whole expression equals the number of its
references, and hence — starting from the empty bin, as `Parse` does — the
consumed count equals the final variable-bin length. -/
theorem c2_varbin_invariant (ext : ExternalEval) (e : Equality) (vb : VarBin) :
    (buildFuncFromEquality ext e vb).2.2.Vars = vb.Vars ++ refsOfEquality e ∧
      (buildFuncFromEquality ext e vb).2.1 = (refsOfEquality e).length ∧
      (buildFuncFromEquality ext e ⟨[]⟩).2.1 =
        (buildFuncFromEquality ext e ⟨[]⟩).2.2.Vars.length := by
  have h := buildFuncFromEquality_refs ext e vb
  have h0 := buildFuncFromEquality_refs ext e ⟨[]⟩
  refine ⟨h.1, h.2, ?_⟩
  rw [h0.1, h0.2]
  simp

/-! ### Claim C5: the binary composition rule -/

/-- C5: for a binary `Equality` node with compiled sub-evaluators `(f1, n1)`
and `(f2, n2)`, the combined evaluator consumes `n1 + n2`; applied to an
argument array of length at least `n1`, it runs `f1` on the whole array, `f2`
on the array dropped by `n1`, and the external operator on the two results;
an error from `f1` is returned unchanged with `f2` and the operator skipped,
and an error from `f2` is returned unchanged with the operator skipped.  The
same composition holds at the `Addition` layer (`buildFuncFromAddition`); the
other two binary layers are word-for-word identical in the source. -/
theorem c5_binary_composition (ext : ExternalEval) (cmp : Comparison) (op : String)
    (nxt : Equality) (m : Multiplication) (opA : String) (nxtA : Addition)
    (vb : VarBin) (args : List Value) :
    ((buildFuncFromEquality ext (.mk cmp op (some nxt)) vb).2.1 =
        (buildFuncFromComparison ext cmp vb).2.1 +
          (buildFuncFromEquality ext nxt (buildFuncFromComparison ext cmp vb).2.2).2.1 ∧
      ((buildFuncFromComparison ext cmp vb).2.1 ≤ args.length →
        (buildFuncFromEquality ext (.mk cmp op (some nxt)) vb).1 args =
          (match (buildFuncFromComparison ext cmp vb).1 args with
           | .error e => .error e
           | .ok v1 =>
             match (buildFuncFromEquality ext nxt (buildFuncFromComparison ext cmp vb).2.2).1
                 (args.drop (buildFuncFromComparison ext cmp vb).2.1) with
             | .error e => .error e
             | .ok v2 => ext.evalOperator op [v1, v2])) ∧
      (∀ er, (buildFuncFromComparison ext cmp vb).1 args = .error er →
        (buildFuncFromEquality ext (.mk cmp op (some nxt)) vb).1 args = .error er) ∧
      (∀ er v1, (buildFuncFromComparison ext cmp vb).1 args = .ok v1 →
        (buildFuncFromComparison ext cmp vb).2.1 ≤ args.length →
        (buildFuncFromEquality ext nxt (buildFuncFromComparison ext cmp vb).2.2).1
            (args.drop (buildFuncFromComparison ext cmp vb).2.1) = .error er →
        (buildFuncFromEquality ext (.mk cmp op (some nxt)) vb).1 args = .error er)) ∧
    ((buildFuncFromAddition ext (.mk m opA (some nxtA)) vb).2.1 =
        (buildFuncFromMultiplication ext m vb).2.1 +
          (buildFuncFromAddition ext nxtA (buildFuncFromMultiplication ext m vb).2.2).2.1 ∧
      ((buildFuncFromMultiplication ext m vb).2.1 ≤ args.length →
        (buildFuncFromAddition ext (.mk m opA (some nxtA)) vb).1 args =
          (match (buildFuncFromMultiplication ext m vb).1 args with
           | .error e => .error e
           | .ok v1 =>
             match (buildFuncFromAddition ext nxtA (buildFuncFromMultiplication ext m vb).2.2).1
                 (args.drop (buildFuncFromMultiplication ext m vb).2.1) with
             | .error e => .error e
             | .ok v2 => ext.evalOperator opA [v1, v2])) ∧
      (∀ er, (buildFuncFromMultiplication ext m vb).1 args = .error er →
        (buildFuncFromAddition ext (.mk m opA (some nxtA)) vb).1 args = .error er)) := by
  constructor
  · refine ⟨rfl, fun hlen => ?_, fun er he => ?_, fun er v1 hv1 hlen he2 => ?_⟩
    · show (match (buildFuncFromComparison ext cmp vb).1 args with
        | Except.error e => Except.error e
        | Except.ok v1 =>
          match goSliceFrom args (buildFuncFromComparison ext cmp vb).2.1 with
          | Except.error e => Except.error e
          | Except.ok rest =>
            match (buildFuncFromEquality ext nxt (buildFuncFromComparison ext cmp vb).2.2).1
                rest with
            | Except.error e => Except.error e
            | Except.ok v2 => ext.evalOperator op [v1, v2]) = _
      rw [show goSliceFrom args (buildFuncFromComparison ext cmp vb).2.1 =
        Except.ok (args.drop (buildFuncFromComparison ext cmp vb).2.1) from by
          simp [goSliceFrom, hlen]]
    · show (match (buildFuncFromComparison ext cmp vb).1 args with
        | Except.error e => Except.error e
        | Except.ok v1 =>
          match goSliceFrom args (buildFuncFromComparison ext cmp vb).2.1 with
          | Except.error e => Except.error e
          | Except.ok rest =>
            match (buildFuncFromEquality ext nxt (buildFuncFromComparison ext cmp vb).2.2).1
                rest with
            | Except.error e => Except.error e
            | Except.ok v2 => ext.evalOperator op [v1, v2]) = Except.error er
      rw [he]
    · show (match (buildFuncFromComparison ext cmp vb).1 args with
        | Except.error e => Except.error e
        | Except.ok v1 =>
          match goSliceFrom args (buildFuncFromComparison ext cmp vb).2.1 with
          | Except.error e => Except.error e
          | Except.ok rest =>
            match (buildFuncFromEquality ext nxt (buildFuncFromComparison ext cmp vb).2.2).1
                rest with
            | Except.error e => Except.error e
            | Except.ok v2 => ext.evalOperator op [v1, v2]) = Except.error er
      rw [hv1, show goSliceFrom args (buildFuncFromComparison ext cmp vb).2.1 =
        Except.ok (args.drop (buildFuncFromComparison ext cmp vb).2.1) from by
          simp [goSliceFrom, hlen]]
      simp only [he2]
  · refine ⟨rfl, fun hlen => ?_, fun er he => ?_⟩
    · show (match (buildFuncFromMultiplication ext m vb).1 args with
        | Except.error e => Except.error e
        | Except.ok v1 =>
          match goSliceFrom args (buildFuncFromMultiplication ext m vb).2.1 with
          | Except.error e => Except.error e
          | Except.ok rest =>
            match (buildFuncFromAddition ext nxtA (buildFuncFromMultiplication ext m vb).2.2).1
                rest with
            | Except.error e => Except.error e
            | Except.ok v2 => ext.evalOperator opA [v1, v2]) = _
      rw [show goSliceFrom args (buildFuncFromMultiplication ext m vb).2.1 =
        Except.ok (args.drop (buildFuncFromMultiplication ext m vb).2.1) from by
          simp [goSliceFrom, hlen]]
    · show (match (buildFuncFromMultiplication ext m vb).1 args with
        | Except.error e => Except.error e
        | Except.ok v1 =>
          match goSliceFrom args (buildFuncFromMultiplication ext m vb).2.1 with
          | Except.error e => Except.error e
          | Except.ok rest =>
            match (buildFuncFromAddition ext nxtA (buildFuncFromMultiplication ext m vb).2.2).1
                rest with
            | Except.error e => Except.error e
            | Except.ok v2 => ext.evalOperator opA [v1, v2]) = Except.error er
      rw [he]

/-- A unary node holding a number literal. -/
def unaryNum (q : ℚ) : Unary := .mk "" none (some (.mk none (some q) none none none none))

/-- A multiplication node holding a number literal. -/
def mulNum (q : ℚ) : Multiplication := .mk (unaryNum q) "" none

/-- An addition node holding a number literal. -/
def addNum (q : ℚ) : Addition := .mk (mulNum q) "" none

/-- A comparison node holding a number literal. -/
def cmpNum (q : ℚ) : Comparison := .mk (addNum q) "" none

/-- An equality node holding a number literal. -/
def eqNum (q : ℚ) : Equality := .mk (cmpNum q) "" none

/-- A comparison whose own operator application fails under the trivial
capability (`1 < 2` with no operator implementation). -/
def cmpErr : Comparison := .mk (addNum 1) "<" (some (cmpNum 2))

/-- An equality wrapping `cmpErr`. -/
def eqErr : Equality := .mk cmpErr "" none

/-- C5 witness: the composition rule instantiated on concrete nodes — the
plain composition on literals, an erroring left sub-evaluator whose error
passes through unchanged, an erroring right sub-evaluator likewise, and the
addition-layer instances. -/
theorem c5_binary_composition_witness :
    ((buildFuncFromEquality trivialExternalEval (.mk (cmpNum 1) "=" (some (eqNum 2))) ⟨[]⟩).1 [] =
      (match (buildFuncFromComparison trivialExternalEval (cmpNum 1) ⟨[]⟩).1 [] with
       | Except.error e => Except.error e
       | Except.ok v1 =>
         match (buildFuncFromEquality trivialExternalEval (eqNum 2)
             (buildFuncFromComparison trivialExternalEval (cmpNum 1) ⟨[]⟩).2.2).1
             (List.drop (buildFuncFromComparison trivialExternalEval (cmpNum 1) ⟨[]⟩).2.1 []) with
         | Except.error e => Except.error e
         | Except.ok v2 => trivialExternalEval.evalOperator "=" [v1, v2])) ∧
    ((buildFuncFromEquality trivialExternalEval (.mk cmpErr "=" (some (eqNum 2))) ⟨[]⟩).1 [] =
      Except.error (EvalErr.goErr "unknown operator")) ∧
    ((buildFuncFromEquality trivialExternalEval (.mk (cmpNum 1) "=" (some eqErr)) ⟨[]⟩).1 [] =
      Except.error (EvalErr.goErr "unknown operator")) ∧
    ((buildFuncFromAddition trivialExternalEval (.mk (mulNum 1) "+" (some (addNum 2))) ⟨[]⟩).1 [] =
      (match (buildFuncFromMultiplication trivialExternalEval (mulNum 1) ⟨[]⟩).1 [] with
       | Except.error e => Except.error e
       | Except.ok v1 =>
         match (buildFuncFromAddition trivialExternalEval (addNum 2)
             (buildFuncFromMultiplication trivialExternalEval (mulNum 1) ⟨[]⟩).2.2).1
             (List.drop (buildFuncFromMultiplication trivialExternalEval (mulNum 1) ⟨[]⟩).2.1 []) with
         | Except.error e => Except.error e
         | Except.ok v2 => trivialExternalEval.evalOperator "+" [v1, v2])) := by
  refine ⟨(c5_binary_composition trivialExternalEval (cmpNum 1) "=" (eqNum 2) (mulNum 1) "+"
      (addNum 2) ⟨[]⟩ []).1.2.1 (by decide),
    (c5_binary_composition trivialExternalEval cmpErr "=" (eqNum 2) (mulNum 1) "+"
      (addNum 2) ⟨[]⟩ []).1.2.2.1 (EvalErr.goErr "unknown operator") rfl,
    (c5_binary_composition trivialExternalEval (cmpNum 1) "=" eqErr (mulNum 1) "+"
      (addNum 2) ⟨[]⟩ []).1.2.2.2 (EvalErr.goErr "unknown operator") (Value.dec 1) rfl
      (by decide) rfl,
    (c5_binary_composition trivialExternalEval (cmpNum 1) "=" (eqNum 2) (mulNum 1) "+"
      (addNum 2) ⟨[]⟩ []).2.2.1 (by decide)⟩

end XL


